import Mathlib

/-!
# Verification of the `summa` bill-ledger insertion engine

Shallow embedding of the ODS ledger code of this repository
(`src/bill_analyzer/bill_inserter.py`, `ods_cells.py`, `ods_rows.py`,
`ods_sheets.py`, `file_utils.py`, and the legacy single-file variant
`src/main.py`), together with theorems settling the frozen claims about it.

Modelling conventions:
* Python floats are modelled as rationals (`ℚ`); the decimal-literal parsing
  done by Python's `float(...)` builtin is modelled by `pyFloat`, and the
  string form `str(x)` of a float by `ratRepr`.  All numeric literals that
  occur in the ledger are short decimal strings, on which these models agree
  with IEEE semantics.
* An ODS XML element's namespaced attributes are modelled as an association
  list keyed by (namespace, attribute name); `text:P` children are modelled by
  their text content.
* In-place mutation of cells, rows and sheets is modelled by explicit state
  passing; `insertBefore(x, node)` on a sheet is modelled as list insertion at
  the reference row's position.
* A raised Python exception is modelled as an `Option String` error component
  carrying the in-memory document state at the time of the raise.
-/

set_option linter.unusedVariables false

/-! ## Python value primitives -/

/-- Digits of a numeral, most significant first, folded to a `Nat`. -/
def natOfDigits (cs : List Char) : Nat :=
  cs.foldl (fun a c => a * 10 + (c.toNat - 48)) 0

/-- ASCII whitespace, for `str.strip()`. -/
def isAsciiSpace (c : Char) : Bool :=
  c = ' ' || c = '\t' || c = '\n' || c = '\r' || c = '\x0b' || c = '\x0c'

/-- Models Python's `str.strip()`.  (The core `String.trim` is defined through
well-founded recursion and does not reduce in the kernel; the embedding uses
character-list models of the Python string methods throughout so that every
definition evaluates on concrete input.) -/
def pyStrip (s : String) : String :=
  (((s.toList.dropWhile isAsciiSpace).reverse.dropWhile isAsciiSpace).reverse).asString

/-- Models Python's `str.lower()` on the ASCII store names of the ledger. -/
def pyLower (s : String) : String := (s.toList.map Char.toLower).asString

/-- Character-list prefix test. -/
def leadsWithChars : List Char → List Char → Bool
  | [], _ => true
  | _ :: _, [] => false
  | a :: as, b :: bs => a = b && leadsWithChars as bs

/-- Models Python's `str.startswith(p)`. -/
def pyStartsWith (s p : String) : Bool := leadsWithChars p.toList s.toList

/-- Models Python's `str.endswith(p)`. -/
def pyEndsWith (s p : String) : Bool := leadsWithChars p.toList.reverse s.toList.reverse

/-- Drop the last `n` characters (`s[:-n]`). -/
def pyDropRight (s : String) (n : Nat) : String :=
  (s.toList.take (s.toList.length - n)).asString

/-- Models Python's `str.replace(a, b)` for single-character arguments (the
only shape the source uses: decimal commas to dots). -/
def pyReplaceChar (s : String) (a b : Char) : String :=
  (s.toList.map (fun c => if c = a then b else c)).asString

/-- Split at every occurrence of a one-character separator (the shape of every
`split` in the embedded code). -/
def splitOnCharAux (sep : Char) : List Char → List (List Char)
  | [] => [[]]
  | c :: cs =>
    let rest := splitOnCharAux sep cs
    if c = sep then [] :: rest
    else
      match rest with
      | [] => [[c]]
      | g :: gs => (c :: g) :: gs

/-- Models Python's `str.split(sep)` for a one-character separator. -/
def pySplitOnChar (s : String) (sep : Char) : List String :=
  (splitOnCharAux sep s.toList).map List.asString

/-- Models Python's `float(s)` on decimal literals: optional surrounding
whitespace, optional sign, integer and/or fractional digits, optional
exponent.  (`inf`/`nan` and underscore separators, which Python also accepts,
are not modelled; no value in the embedded code uses them.) -/
def pyFloat (s : String) : Option ℚ :=
  let cs := (pyStrip s).toList
  let signAndRest : Bool × List Char :=
    match cs with
    | '+' :: t => (false, t)
    | '-' :: t => (true, t)
    | _ => (false, cs)
  let neg := signAndRest.1
  let cs0 := signAndRest.2
  let intDigits := cs0.takeWhile Char.isDigit
  let cs1 := cs0.dropWhile Char.isDigit
  let fracAndRest : List Char × List Char :=
    match cs1 with
    | '.' :: t => (t.takeWhile Char.isDigit, t.dropWhile Char.isDigit)
    | _ => ([], cs1)
  let fracDigits := fracAndRest.1
  let cs2 := fracAndRest.2
  if intDigits.isEmpty ∧ fracDigits.isEmpty then none
  else
    let mantAbs : Nat := natOfDigits (intDigits ++ fracDigits)
    let mantNum : Int := if neg then -(mantAbs : Int) else (mantAbs : Int)
    let mantDen : Nat := 10 ^ fracDigits.length
    match cs2 with
    | [] => some (mkRat mantNum mantDen)
    | 'e' :: t | 'E' :: t =>
      let esignAndRest : Bool × List Char :=
        match t with
        | '+' :: t2 => (false, t2)
        | '-' :: t2 => (true, t2)
        | _ => (false, t)
      let eDigits := esignAndRest.2.takeWhile Char.isDigit
      let rest := esignAndRest.2.dropWhile Char.isDigit
      if eDigits.isEmpty ∨ ¬ rest.isEmpty then none
      else
        let e := natOfDigits eDigits
        if esignAndRest.1 then some (mkRat mantNum (mantDen * 10 ^ e))
        else some (mkRat (mantNum * ((10 ^ e : Nat) : Int)) mantDen)
    | _ => none

/-- Fractional digits of `r / d`, at most `fuel` of them (the expansion of
every value reachable in the embedded code terminates well inside the fuel). -/
def fracDigitChars (r d : Nat) : Nat → List Char
  | 0 => []
  | fuel + 1 =>
    if r = 0 then []
    else
      let r10 := r * 10
      Char.ofNat (48 + r10 / d) :: fracDigitChars (r10 % d) d fuel

/-- Models Python's `str(x)` on a float: decimal form with at least one
fractional digit (`str(5.0) = "5.0"`). -/
def ratRepr (q : ℚ) : String :=
  let sign := if q < 0 then "-" else ""
  let n := q.num.natAbs
  let d := q.den
  let frac := fracDigitChars (n % d) d 25
  sign ++ toString (n / d) ++ "." ++ (if frac.isEmpty then "0" else String.mk frac)

/-- A Python value as it flows through the cell codec: either a `str` or a
float.  (`get_cell_value` in the source is annotated `str | float`.) -/
inductive PyVal where
  | str : String → PyVal
  | num : ℚ → PyVal
deriving DecidableEq, Repr

/-- Python truthiness of a cell value (`""` and `0.0` are falsy). -/
def PyVal.truthy : PyVal → Bool
  | .str s => s ≠ ""
  | .num q => q ≠ 0

/-- Models `str(v)`.  The scanner code of the source applies string operations
(`strip`, `lower`, prefix tests) to cell values it annotates as `str`; on the
(unreachable for the embedded writers) float case we use the float's string
form. -/
def PyVal.toPyStr : PyVal → String
  | .str s => s
  | .num q => ratRepr q

/-! ## Namespaced attribute lists (the XML element model) -/

/-- Attribute namespaces, by the names the source imports
(`OFFICENS`, `TABLENS`, `CALCEXT_NS`). -/
def OFFICENS : String := "office"

def TABLENS : String := "table"

def CALCEXT_NS : String := "calcext"

/-- An attribute key: (namespace, local name). -/
abbrev AttrKey := String × String

/-- Association-list lookup, first match wins (attribute keys are unique in
an XML element, so this matches dictionary semantics). -/
def getAttrList : List (AttrKey × String) → AttrKey → Option String
  | [], _ => none
  | a :: rest, k => if a.1 = k then some a.2 else getAttrList rest k

/-- Replace the value at a key, or append the pair if the key is absent. -/
def setAttrList : List (AttrKey × String) → AttrKey → String → List (AttrKey × String)
  | [], k, v => [(k, v)]
  | a :: rest, k, v => if a.1 = k then (k, v) :: rest else a :: setAttrList rest k v

/-- Remove every pair at a key (keys are unique, so this is dictionary
deletion; the source wraps `removeAttrNS` in `try/except KeyError: pass`). -/
def removeAttrList : List (AttrKey × String) → AttrKey → List (AttrKey × String)
  | [], _ => []
  | a :: rest, k => if a.1 = k then removeAttrList rest k else a :: removeAttrList rest k

theorem getAttrList_setAttrList_same (l : List (AttrKey × String)) (k : AttrKey) (v : String) :
    getAttrList (setAttrList l k v) k = some v := by
  induction l with
  | nil => simp [setAttrList, getAttrList]
  | cons a rest ih =>
    by_cases h : a.1 = k
    · simp [setAttrList, getAttrList, h]
    · simp [setAttrList, getAttrList, h, ih]

theorem getAttrList_setAttrList_ne (l : List (AttrKey × String)) (k k' : AttrKey) (v : String)
    (h : k' ≠ k) : getAttrList (setAttrList l k v) k' = getAttrList l k' := by
  induction l with
  | nil =>
    simp only [setAttrList, getAttrList]
    rw [if_neg (fun hh : (k, v).1 = k' => h hh.symm)]
  | cons a rest ih =>
    by_cases ha : a.1 = k
    · simp only [setAttrList, if_pos ha, getAttrList]
      rw [if_neg (fun hh : (k, v).1 = k' => h hh.symm),
        if_neg (fun hh : a.1 = k' => h (hh.symm.trans ha))]
    · simp only [setAttrList, if_neg ha, getAttrList]
      by_cases hb : a.1 = k'
      · simp [hb]
      · simp [hb, ih]

theorem getAttrList_removeAttrList (l : List (AttrKey × String)) (k k' : AttrKey) :
    getAttrList (removeAttrList l k) k' =
      if k' = k then none else getAttrList l k' := by
  induction l with
  | nil => simp [removeAttrList, getAttrList]
  | cons a rest ih =>
    by_cases ha : a.1 = k
    · simp only [removeAttrList, if_pos ha, ih]
      by_cases hk : k' = k
      · simp [hk]
      · simp only [if_neg hk, getAttrList]
        rw [if_neg (fun hh : a.1 = k' => hk (hh.symm.trans ha))]
    · simp only [removeAttrList, if_neg ha, getAttrList]
      by_cases hb : a.1 = k'
      · have hk : ¬ k' = k := fun hh => ha (hb.trans hh)
        simp [hb, hk]
      · simp [hb, ih]

/-! ## Cells, rows, sheets, documents -/

/-- An ODS table cell: namespaced attributes plus the text content of its
`text:P` children (one list entry per paragraph child). -/
structure Cell where
  attrs : List (AttrKey × String)
  children : List String
deriving DecidableEq, Repr

/-- A fresh `table.TableCell()`. -/
def emptyCell : Cell := ⟨[], []⟩

def Cell.getAttrNS (c : Cell) (ns name : String) : Option String :=
  getAttrList c.attrs (ns, name)

def Cell.setAttrNS (c : Cell) (ns name v : String) : Cell :=
  ⟨setAttrList c.attrs (ns, name) v, c.children⟩

def Cell.removeAttrNS (c : Cell) (ns name : String) : Cell :=
  ⟨removeAttrList c.attrs (ns, name), c.children⟩

/-- Remove all child nodes (`for child in list(cell.childNodes): removeChild`). -/
def Cell.clearChildren (c : Cell) : Cell := ⟨c.attrs, []⟩

/-- Append one `text:P` child with the given text. -/
def Cell.appendP (c : Cell) (t : String) : Cell := ⟨c.attrs, c.children ++ [t]⟩

/-- An ODS table row: its `table:style-name` attribute and its cells. -/
structure Row where
  style : Option String
  cells : List Cell
deriving DecidableEq, Repr

/-- A fresh `table.TableRow()`. -/
def emptyRow : Row := ⟨none, []⟩

/-- An ODS sheet: its `table:name` and its rows. -/
structure Sheet where
  name : String
  rows : List Row
deriving DecidableEq, Repr

/-- An ODS document: its sheets in order. -/
abbrev Doc := List Sheet

/-- Python truthiness of an optional style string (`if style:` in the source
treats both `None` and `""` as absent). -/
def truthyStyle : Option String → Option String
  | some s => if s = "" then none else some s
  | none => none

/-- Fixed column layout from `config.py`. -/
def COL_DATE : Nat := 1

def COL_STORE : Nat := 2

def COL_ITEM : Nat := 3

def COL_PRICE : Nat := 4

def COL_TOTAL : Nat := 5

/-! ## Calendar dates -/

/-- A calendar date (no time component). -/
structure Date where
  year : Nat
  month : Nat
  day : Nat
deriving DecidableEq, Repr

/-- Total order key used for chronological comparison and sorting. -/
def Date.key (d : Date) : Nat := d.year * 10000 + d.month * 100 + d.day

/-- Zero-padded two-digit numeral. -/
def pad2 (n : Nat) : String := if n < 10 then "0" ++ toString n else "" ++ toString n

/-- Zero-padded four-digit numeral (years in the ledger are all ≥ 1000). -/
def pad4 (n : Nat) : String :=
  if n < 10 then "000" ++ toString n
  else if n < 100 then "00" ++ toString n
  else if n < 1000 then "0" ++ toString n
  else toString n

/-- Embeds `strftime("%Y-%m-%d")`. -/
def Date.toIso (d : Date) : String := pad4 d.year ++ "-" ++ pad2 d.month ++ "-" ++ pad2 d.day

/-- Embeds `strftime("%b")`: locale-independent English month abbreviation. -/
def Date.monthAbbrev (d : Date) : String :=
  (["Jan", "Feb", "Mar", "Apr", "May", "Jun",
    "Jul", "Aug", "Sep", "Oct", "Nov", "Dec"].getD (d.month - 1) "???")

/-- The sheet-name derivation `f"{date:%b} {date:%y}"`, e.g. `"Mar 24"`. -/
def Date.sheetName (d : Date) : String := d.monthAbbrev ++ " " ++ pad2 (d.year % 100)

/-- A numeral string: nonempty, digits only. -/
def allDigits (s : String) : Bool := s.length ≠ 0 && s.toList.all Char.isDigit

/-- Modelled from the spec: `parse_date` is imported from `.utils`, a module of
this repository that is absent from src/ (`src/bill_analyzer/file_utils.py`
holds only the backup helpers).  Per the spec (§4.3) date cells are parsed
"permissively (day-first ambiguity resolution)", handling both the ISO format
`YYYY-MM-DD` carried by `date-value` attributes and the German day-first
format `DD.MM.YY` / `DD.MM.YYYY` found in text content; unparsable input
yields no date.  `dateutil.parser.parse(s, dayfirst=True)` at the call sites
of `bill_inserter.py` is modelled by the same parser. -/
def parse_date (s : String) : Option Date :=
  let t := pyStrip s
  match pySplitOnChar t '-' with
  | [y, m, d] =>
    if allDigits y ∧ allDigits m ∧ allDigits d ∧ y.length = 4 then
      let dte := Date.mk (natOfDigits y.toList) (natOfDigits m.toList) (natOfDigits d.toList)
      if 1 ≤ dte.month ∧ dte.month ≤ 12 ∧ 1 ≤ dte.day ∧ dte.day ≤ 31 then some dte else none
    else none
  | _ =>
    match pySplitOnChar t '.' with
    | [d, m, y] =>
      if allDigits y ∧ allDigits m ∧ allDigits d ∧ (y.length = 2 ∨ y.length = 4) then
        let yr := if y.length = 2 then 2000 + natOfDigits y.toList else natOfDigits y.toList
        let dte := Date.mk yr (natOfDigits m.toList) (natOfDigits d.toList)
        if 1 ≤ dte.month ∧ dte.month ≤ 12 ∧ 1 ≤ dte.day ∧ dte.day ≤ 31 then some dte else none
      else none
    | _ => none

/-! ## Cell codec (`src/bill_analyzer/ods_cells.py`; `get_cell_value` is
textually identical in `src/main.py`) -/

/-- Truthiness filter for an attribute read (`if value_attr:`). -/
def attrTruthy (o : Option String) : Option String :=
  match o with
  | some v => if v = "" then none else some v
  | none => none

/-- Embeds `get_cell_value`: try the `office:value` attribute (as a float), then
`office:date-value`, then `office:string-value`, then the concatenated text
content.  The source applies Python `float(...)` to the `value` attribute and
would raise on an unparsable one; no writer in the embedded code produces such
a cell, and we return the value 0 there. -/
def get_cell_value (cell : Cell) : PyVal :=
  match attrTruthy (cell.getAttrNS OFFICENS "value") with
  | some v => .num ((pyFloat v).getD 0)
  | none =>
    match attrTruthy (cell.getAttrNS OFFICENS "date-value") with
    | some v => .str v
    | none =>
      match attrTruthy (cell.getAttrNS OFFICENS "string-value") with
      | some v => .str v
      | none => .str (String.join cell.children)

/-- Embeds `_set_numeric_value`: text content `str(value)`, float value-type, value
attribute `str(value)`. -/
def set_numeric_value (cell : Cell) (q : ℚ) : Cell :=
  (((cell.appendP (ratRepr q)).setAttrNS OFFICENS "value-type" "float").setAttrNS
    OFFICENS "value" (ratRepr q))

/-- Embeds `_set_formula_value`: empty paragraph, commas normalized to dots,
`table:formula` = `"of:" + formula`, float value-type. -/
def set_formula_value (cell : Cell) (s : String) : Cell :=
  (((cell.appendP "").setAttrNS TABLENS "formula"
      ("of:" ++ pyReplaceChar s ',' '.')).setAttrNS OFFICENS "value-type" "float")

/-- Embeds `_set_string_value`: try `float(value.replace(",", "."))`; on success
store as a float-typed cell, otherwise as string-typed free text. -/
def set_string_value (cell : Cell) (s : String) : Cell :=
  match pyFloat (pyReplaceChar s ',' '.') with
  | some q =>
    (((cell.appendP (ratRepr q)).setAttrNS OFFICENS "value-type" "float").setAttrNS
      OFFICENS "value" (ratRepr q))
  | none => ((cell.appendP s).setAttrNS OFFICENS "value-type" "string")

/-- Embeds `set_cell_value` (ods_cells.py): clear existing children, then dispatch on
the value's type.  The date/datetime branches are omitted: every call site in
the embedded code passes a string or a number (bill dates arrive as strings).
-/
def set_cell_value (cell : Cell) (v : PyVal) : Cell :=
  let c := cell.clearChildren
  match v with
  | .num q => set_numeric_value c q
  | .str s => if pyStartsWith s "=" then set_formula_value c s else set_string_value c s

/-- Embeds `config.OFFICE_ATTRS_TO_CLEAR`. -/
def OFFICE_ATTRS_TO_CLEAR : List String :=
  ["value", "date-value", "time-value", "boolean-value", "string-value", "value-type", "currency"]

/-- Embeds `config.TABLE_ATTRS_TO_CLEAR`. -/
def TABLE_ATTRS_TO_CLEAR : List String := ["formula"]

/-- Embeds `config.CALCEXT_ATTRS_TO_CLEAR`. -/
def CALCEXT_ATTRS_TO_CLEAR : List String := ["value-type"]

/-- Remove a batch of attribute keys (one `removeAttrNS` loop of the source). -/
def removeKeys (cell : Cell) (ks : List AttrKey) : Cell :=
  ks.foldl (fun acc k => acc.removeAttrNS k.1 k.2) cell

/-- Embeds `clear_cell_completely` (ods_cells.py; textually identical in main.py):
remove all children, then the office value attributes, the table formula
attribute, and the calcext value-type cache. -/
def clear_cell_completely (cell : Cell) : Cell :=
  let c1 := cell.clearChildren
  let c2 := removeKeys c1 (OFFICE_ATTRS_TO_CLEAR.map (fun n => (OFFICENS, n)))
  let c3 := removeKeys c2 (TABLE_ATTRS_TO_CLEAR.map (fun n => (TABLENS, n)))
  removeKeys c3 (CALCEXT_ATTRS_TO_CLEAR.map (fun n => (CALCEXT_NS, n)))

/-- Embeds `create_empty_cell_with_style`: fresh cell, style copied from the
reference cell when truthy, one empty paragraph. -/
def create_empty_cell_with_style (reference_cell : Cell) : Cell :=
  let c := match truthyStyle (reference_cell.getAttrNS TABLENS "style-name") with
    | some st => emptyCell.setAttrNS TABLENS "style-name" st
    | none => emptyCell
  c.appendP ""

/-! ## Row builder (`src/bill_analyzer/ods_rows.py`) -/

/-- Python truthiness of an optional string argument. -/
def optStrTruthy : Option String → Bool
  | some s => s ≠ ""
  | none => false

/-- Python truthiness of an optional float argument (`0.0` is falsy). -/
def optNumTruthy : Option ℚ → Bool
  | some q => q ≠ 0
  | none => false

/-- One column of `create_item_row`: copy the template cell's style when
truthy, then populate store (only if truthy), item name, price, or total
(only if truthy); all other columns get an empty paragraph. -/
def item_row_cell (template_cells : List Cell) (item_name : String) (item_price : PyVal)
    (store_name : Option String) (total_price : Option ℚ) (i : Nat) : Cell :=
  let c1 := match truthyStyle ((template_cells[i]?.getD emptyCell).getAttrNS TABLENS "style-name") with
    | some st => emptyCell.setAttrNS TABLENS "style-name" st
    | none => emptyCell
  if i = COL_STORE ∧ optStrTruthy store_name then set_cell_value c1 (.str (store_name.getD ""))
  else if i = COL_ITEM then set_cell_value c1 (.str item_name)
  else if i = COL_PRICE then set_cell_value c1 item_price
  else if i = COL_TOTAL ∧ optNumTruthy total_price then set_cell_value c1 (.num (total_price.getD 0))
  else c1.appendP ""

/-- Embeds `create_item_row` (ods_rows.py): a row with the template's style (when
truthy) and one cell per template column. -/
def create_item_row (template_cells : List Cell) (template_row_style : Option String)
    (item_name : String) (item_price : PyVal) (store_name : Option String)
    (total_price : Option ℚ) : Row :=
  ⟨truthyStyle template_row_style,
   (List.range template_cells.length).map
     (item_row_cell template_cells item_name item_price store_name total_price)⟩

/-- Embeds `create_blank_separator_row` (ods_rows.py / main.py). -/
def create_blank_separator_row (template_cells : List Cell)
    (template_row_style : Option String) : Row :=
  ⟨truthyStyle template_row_style, template_cells.map create_empty_cell_with_style⟩

/-- Embeds `save_existing_row_data` (ods_rows.py / main.py): values and styles of a
row's cells, captured before mutation. -/
def save_existing_row_data (cells : List Cell) : List (PyVal × Option String) :=
  cells.map (fun c => (get_cell_value c, c.getAttrNS TABLENS "style-name"))

/-- Embeds `restore_row_as_new` (ods_rows.py): restored copy of a saved row; only
columns from `COL_STORE` on with a truthy, non-blank value are re-created,
the date columns (0 and 1) are always left blank. -/
def restore_row_as_new (old_row_data : List (PyVal × Option String))
    (template_row_style : Option String) : Row :=
  ⟨truthyStyle template_row_style,
   old_row_data.enum.map (fun p =>
     let c1 := match truthyStyle p.2.2 with
       | some st => emptyCell.setAttrNS TABLENS "style-name" st
       | none => emptyCell
     if COL_STORE ≤ p.1 ∧ p.2.1.truthy ∧ pyStrip p.2.1.toPyStr ≠ "" then
       set_cell_value c1 p.2.1
     else c1.appendP "")⟩

/-! ## Sheet locator (`src/bill_analyzer/ods_sheets.py`) -/

/-- Embeds `find_sheet_by_name`: first sheet whose `table:name` matches. -/
def find_sheet_by_name (doc : Doc) (sheet_name : String) : Option Sheet :=
  doc.find? (fun s => s.name == sheet_name)

/-- Replace the rows of the first sheet with the given name (the in-place
mutation of that sheet's row list). -/
def doc_update_sheet : Doc → String → List Row → Doc
  | [], _, _ => []
  | s :: rest, nm, rows2 =>
    if s.name = nm then ⟨s.name, rows2⟩ :: rest else s :: doc_update_sheet rest nm rows2

/-- The per-row predicate of `find_date_row` (ods_sheets.py): a string-valued
date cell with non-blank content parsing (day-first) to the target date. -/
def row_matches_date (row : Row) (target : Date) : Bool :=
  match row.cells[COL_DATE]? with
  | none => false
  | some c =>
    match get_cell_value c with
    | .str s =>
      if pyStrip s ≠ "" then
        match parse_date s with
        | some d => decide (d = target)
        | none => false
      else false
    | .num _ => false

/-- Embeds `find_date_row` (ods_sheets.py), over the sheet's row list. -/
def find_date_row (rows : List Row) (target : Date) : Option Nat :=
  rows.findIdx? (fun r => row_matches_date r target)

/-- Embeds `has_existing_data` (ods_sheets.py / main.py): some cell in columns
`COL_STORE..COL_TOTAL-1` holds a truthy, non-blank value. -/
def has_existing_data (cells : List Cell) : Bool :=
  (List.range' COL_STORE (COL_TOTAL - COL_STORE)).any (fun i =>
    match cells[i]? with
    | some c => (get_cell_value c).truthy ∧ pyStrip (get_cell_value c).toPyStr ≠ ""
    | none => false)

/-- Whether a row's date column parses to a date strictly later than the
target (used by the spec-modelled chronological lookup). -/
def row_date_later (row : Row) (target : Date) : Bool :=
  match row.cells[COL_DATE]? with
  | none => false
  | some c =>
    match get_cell_value c with
    | .str s =>
      match parse_date s with
      | some d => decide (target.key < d.key)
      | none => false
    | .num _ => false

/-- Modelled from the spec: `find_chronological_insertion_point` is imported
by `bill_inserter.py` from `.ods_sheets`, but `src/bill_analyzer/ods_sheets.py`
does not define it.  Per the spec (§4.3) it "must locate the first row whose
date is strictly later than the target, so that a new date row can be
inserted immediately before it"; rows without a parsable date are skipped;
when no later date exists it returns nothing. -/
def find_chronological_insertion_point (rows : List Row) (date_str : String) : Option Nat :=
  match parse_date date_str with
  | none => none
  | some target => rows.findIdx? (fun r => row_date_later r target)

/-- Whether a row holds any truthy cell value. -/
def row_has_data (row : Row) : Bool := row.cells.any (fun c => (get_cell_value c).truthy)

/-- Modelled from the spec: `find_last_row` is imported by `bill_inserter.py`
from `.ods_sheets`, but absent from src/.  Per the spec (§4.3) insertion with
no later date happens "after the last data row (`findLastRow(rows)` + constant
offset)"; we model it as the index of the last row holding any data, 0 when
the sheet has none. -/
def find_last_row (rows : List Row) : Nat :=
  ((List.range rows.length).filter (fun i => row_has_data (rows[i]?.getD emptyRow))).getLastD 0

/-! ## Duplicate detector (`src/bill_analyzer/bill_inserter.py`) -/

/-- Embeds `_BillSearchCriteria` (bill_inserter.py).  The dataclass declares a float
comparison tolerance `epsilon` with default `0.01`; note that no code in the
source ever reads it. -/
structure BillSearchCriteria where
  date_str : String
  store_normalized : String
  total : ℚ
  epsilon : ℚ
deriving DecidableEq, Repr

/-- Modelled from the spec: `extract_price_number` is imported from `.utils`,
a module of this repository absent from src/.  Per the spec (§4.4, step 4)
a total cell's value "parses to a number"; we model the extraction as taking
the value's string form and trimming whitespace and a trailing euro currency
sign. -/
def extract_price_number (v : PyVal) : String :=
  let s := pyStrip v.toPyStr
  if pyEndsWith s "€" then pyStrip (pyDropRight s 1) else s

/-- Modelled from the spec: `is_number` is imported from `.utils`, absent from
src/; it reports whether the string parses as a Python float. -/
def is_number (s : String) : Bool := (pyFloat s).isSome

/-- Embeds `_has_matching_date`: the row's date cell (when present and truthy)
parses to the target ISO date string. -/
def has_matching_date (cells : List Cell) (target_date_str : String) : Bool :=
  match cells[COL_DATE]? with
  | none => false
  | some c =>
    let date_value := get_cell_value c
    if ¬ date_value.truthy then false
    else
      match parse_date date_value.toPyStr with
      | none => false
      | some rd => decide (rd.toIso = target_date_str)

/-- Loop body of `_get_store_from_bill_start`, with an explicit iteration
budget.  Called with budget `rows.length` the recursion is exact: each step
advances `idx` by one, and the source loop runs at most `len(rows) - start_idx`
iterations. -/
def get_store_aux (rows : List Row) (start_idx : Nat) (store : String) :
    Nat → Nat → Option Nat
  | _, 0 => none
  | idx, fuel + 1 =>
    match rows[idx]? with
    | none => none
    | some row =>
      let cells := row.cells
      if cells.length ≤ COL_STORE then get_store_aux rows start_idx store (idx + 1) fuel
      else if start_idx ≠ idx ∧ (get_cell_value (cells[COL_DATE]?.getD emptyCell)).truthy then
        none
      else
        let found_store := get_cell_value (cells[COL_STORE]?.getD emptyCell)
        if ¬ found_store.truthy then get_store_aux rows start_idx store (idx + 1) fuel
        else if pyLower (pyStrip found_store.toPyStr) ≠ store then
          get_store_aux rows start_idx store (idx + 1) fuel
        else some idx

/-- Embeds `_get_store_from_bill_start`: scan forward from `start_idx` for a row
whose store column matches (case/whitespace-insensitive); a truthy date cell
on a later row (with more than `COL_STORE` cells) aborts the scan. -/
def get_store_from_bill_start (rows : List Row) (start_idx : Nat) (store : String) :
    Option Nat :=
  get_store_aux rows start_idx store start_idx rows.length

/-- Loop body of `_find_total_in_bill_group`, with an explicit iteration
budget (exact for budget `rows.length`, as for `get_store_aux`). -/
def find_total_aux (rows : List Row) (start_idx : Nat) (total : ℚ) :
    Nat → Nat → Option Nat
  | _, 0 => none
  | idx, fuel + 1 =>
    match rows[idx]? with
    | none => none
    | some row =>
      let cells := row.cells
      if cells.length ≤ COL_TOTAL then find_total_aux rows start_idx total (idx + 1) fuel
      else if start_idx ≠ idx ∧
          ((get_cell_value (cells[COL_DATE]?.getD emptyCell)).truthy ∨
            (get_cell_value (cells[COL_STORE]?.getD emptyCell)).truthy) then
        none
      else
        let found_total := get_cell_value (cells[COL_TOTAL]?.getD emptyCell)
        if ¬ found_total.truthy then find_total_aux rows start_idx total (idx + 1) fuel
        else
          let ft := extract_price_number found_total
          if ¬ is_number ft then find_total_aux rows start_idx total (idx + 1) fuel
          else if (pyFloat ft).getD 0 ≠ total then none
          else some idx

/-- Embeds `_find_total_in_bill_group`: scan forward from `start_idx` for a row whose
total column parses to a number; a new date or store marker aborts the scan,
and a parsed total different from the target immediately yields no match
(the comparison is exact, `float(found_total) != total`). -/
def find_total_in_bill_group (rows : List Row) (start_idx : Nat) (total : ℚ) : Option Nat :=
  find_total_aux rows start_idx total start_idx rows.length

/-- A row carrying a truthy date value in a cell list longer than `COL_DATE`
(the `end_idx` computation of `_process_bill_row_for_duplicate`). -/
def row_has_date_marker (row : Row) : Bool :=
  match row.cells[COL_DATE]? with
  | none => false
  | some c => (get_cell_value c).truthy

/-- Index of the next date row after `start_idx` (`end_idx`; `none` models the
sentinel `-1`). -/
def find_next_date_row (rows : List Row) (start_idx : Nat) : Option Nat :=
  match (rows.drop (start_idx + 1)).findIdx? row_has_date_marker with
  | some k => some (start_idx + 1 + k)
  | none => none

/-- Whether a found store index lies at or beyond the bounding date row
(`end_idx != -1 and new_idx >= end_idx`). -/
def end_hit (end_idx : Option Nat) (m : Nat) : Bool :=
  match end_idx with
  | some e => decide (e ≤ m)
  | none => false

/-- The `while new_idx is None` loop of `_process_bill_row_for_duplicate`,
with an explicit iteration budget.  Each iteration advances the scan index
past the found store row, so with budget `rows.length + 1` the recursion is
exact (the budget-0 default is unreachable from `bill_scan_start`). -/
def bill_scan_aux (rows : List Row) (start_idx : Nat) (end_idx : Option Nat)
    (crit : BillSearchCriteria) : Nat → Nat → Bool
  | _, 0 => false
  | idx, fuel + 1 =>
    match get_store_from_bill_start rows idx crit.store_normalized with
    | none => false
    | some m =>
      if m < start_idx then false
      else if end_hit end_idx m then false
      else
        match find_total_in_bill_group rows m crit.total with
        | some _ => true
        | none => bill_scan_aux rows start_idx end_idx crit (m + 1) fuel

/-- Embeds `_process_bill_row_for_duplicate`: the start row must match the bill's
date; then alternate store-scan and total-scan, bounded by the next date row. -/
def process_bill_row_for_duplicate (rows : List Row) (start_idx : Nat)
    (crit : BillSearchCriteria) : Bool :=
  let cells := (rows[start_idx]?.getD emptyRow).cells
  if ¬ has_matching_date cells crit.date_str then false
  else
    bill_scan_aux rows start_idx (find_next_date_row rows start_idx) crit start_idx
      (rows.length + 1)

/-- The row loop of `_check_duplicate_bill` over a sheet's rows. -/
def check_duplicate_rows (rows : List Row) (crit : BillSearchCriteria) : Bool :=
  (List.range rows.length).any (fun i => process_bill_row_for_duplicate rows i crit)

/-- Embeds `_check_duplicate_bill`: parse the bill date (`none` models the raised
parse error), derive the sheet name, missing sheet reports no duplicate,
otherwise scan the sheet's rows.  `epsilon` takes its (unused) dataclass
default `0.01`. -/
def check_duplicate_bill_doc (doc : Doc) (store : String) (date_str : String)
    (total : ℚ) : Option Bool :=
  match parse_date date_str with
  | none => none
  | some d =>
    match find_sheet_by_name doc d.sheetName with
    | none => some false
    | some sheet =>
      some (check_duplicate_rows sheet.rows
        (BillSearchCriteria.mk d.toIso (pyLower (pyStrip store)) total (mkRat 1 100)))

/-! ## Bills and the insertion engine (`src/bill_analyzer/bill_inserter.py`) -/

/-- One line item of a bill (`{name, price}`; the price may be a number or a
formula string such as `"=4*0,59"`). -/
structure Item where
  name : String
  price : PyVal
deriving DecidableEq, Repr

/-- A bill record as handed to the engine
(`{store, date, items, total}`). -/
structure Bill where
  date : String
  store : String
  items : List Item
  total : ℚ
deriving DecidableEq, Repr

/-- Result of a mutating operation: error message of a raised exception (if
any) together with the in-memory document state afterwards. -/
structure InsEff where
  err : Option String
  doc : Doc
deriving DecidableEq, Repr

/-- The guarded date-cell clearing of `_insert_single_bill_data`
(`if len(cells) >= COL_DATE: clear_cell_completely(cells[COL_DATE])`).
Note the `>=`: a one-cell row passes the guard and `cells[COL_DATE]`
raises `IndexError`. -/
def clear_date_cell_step (cells : List Cell) : Except String (List Cell) :=
  if COL_DATE ≤ cells.length then
    match cells[COL_DATE]? with
    | none => .error "IndexError"
    | some dc => .ok (cells.set COL_DATE (clear_cell_completely dc))
  else .ok cells

/-- One column of the fresh date row built by `_insert_single_bill_data`
(the `match col_idx` over columns `0..COL_TOTAL`); the bill date and store
are written as strings, the total only when the bill has exactly one item,
and other columns get an empty paragraph (the `COL_TOTAL` cell stays bare
when no total is written). -/
def date_row_cell (bill : Bill) (it0 : Item) (i : Nat) : Cell :=
  if i = COL_DATE then set_cell_value emptyCell (.str bill.date)
  else if i = COL_STORE then set_cell_value emptyCell (.str bill.store)
  else if i = COL_ITEM then set_cell_value emptyCell (.str it0.name)
  else if i = COL_PRICE then set_cell_value emptyCell it0.price
  else if i = COL_TOTAL then
    (if bill.items.length = 1 then set_cell_value emptyCell (.num bill.total) else emptyCell)
  else emptyCell.appendP ""

/-- Target row index selection of `_insert_single_bill_data`: the exact date
row when one exists, else the chronological insertion point, else
`find_last_row(rows) + 2`. -/
def insertion_target_idx (rows : List Row) (bill_date : String) (d : Date) : Nat :=
  match find_date_row rows d with
  | some i => i
  | none =>
    match find_chronological_insertion_point rows bill_date with
    | some i => i
    | none => find_last_row rows + 2

/-- Embeds `_insert_single_bill_data` (with `_find_target_sheet_and_row` inlined):
parse the date, resolve the sheet (absent sheet is a silent skip), resolve the
target row, clear its date cell, build and insert the new date row, the
remaining item rows (total on the last item, compared by value), and a blank
separator row, all immediately before the target row. -/
def insert_single_bill_data (doc : Doc) (bill : Bill) : InsEff :=
  match parse_date bill.date with
  | none => ⟨some "ParseError", doc⟩
  | some d =>
    match find_sheet_by_name doc d.sheetName with
    | none => ⟨none, doc⟩
    | some sheet =>
      let rows := sheet.rows
      let tIdx := insertion_target_idx rows bill.date d
      match rows[tIdx]? with
      | none => ⟨some "IndexError", doc⟩
      | some target_row =>
        let cells := target_row.cells
        let row_style := target_row.style
        match clear_date_cell_step cells with
        | .error e => ⟨some e, doc⟩
        | .ok cells2 =>
          let target_row2 := Row.mk target_row.style cells2
          let rows2 := rows.set tIdx target_row2
          match bill.items.head? with
          | none => ⟨some "IndexError", doc_update_sheet doc d.sheetName rows2⟩
          | some it0 =>
            let date_row := Row.mk none ((List.range (COL_TOTAL + 1)).map (date_row_cell bill it0))
            if bill.items.length ≤ 1 then
              ⟨none, doc_update_sheet doc d.sheetName
                (rows2.take tIdx ++ [date_row, emptyRow, target_row2] ++ rows2.drop (tIdx + 1))⟩
            else
              let remaining := bill.items.tail
              let last_it := remaining.getLastD it0
              let item_rows := remaining.map (fun it =>
                create_item_row cells2 row_style it.name it.price none
                  (if it = last_it then some bill.total else none))
              ⟨none, doc_update_sheet doc d.sheetName
                (rows2.take tIdx ++ [date_row] ++ item_rows ++ [emptyRow, target_row2] ++
                  rows2.drop (tIdx + 1))⟩

/-! ## Batch transaction manager (`process_multiple_bills` in
`bill_inserter.py`, backup helpers from `src/bill_analyzer/file_utils.py`) -/

/-- The sequential insertion loop over the sorted batch; an exception from any
bill aborts the remainder, carrying the mutated in-memory document. -/
def insert_all : Doc → List Bill → InsEff
  | doc, [] => ⟨none, doc⟩
  | doc, b :: rest =>
    let r := insert_single_bill_data doc b
    match r.err with
    | some e => ⟨some e, r.doc⟩
    | none => insert_all r.doc rest

/-- The sort key `dparser.parse(bill["date"], dayfirst=True).date()`; the
caller guarantees parse success, so the default is never the compared value. -/
def bill_sort_key (b : Bill) : Nat := ((parse_date b.date).map Date.key).getD 0

/-- Stable ascending insertion (Python's `sorted` is stable; a stable
ascending sort is unique, so insertion sort models it exactly). -/
def insert_by_key (b : Bill) : List Bill → List Bill
  | [] => [b]
  | x :: xs => if bill_sort_key x < bill_sort_key b then x :: insert_by_key b xs else b :: x :: xs

/-- Embeds `sorted(bills_data, key=...)`. -/
def sort_bills (bills : List Bill) : List Bill := bills.foldr insert_by_key []

/-- Outcome of a batch call: the error re-raised to the caller (if any), the
ledger file's contents afterwards, and the backup file (present on the
failure path: `restore_from_backup` copies it back without deleting it). -/
structure BatchResult where
  err : Option String
  file : Doc
  backup : Option Doc
deriving DecidableEq, Repr

/-- Embeds `process_multiple_bills`: empty batch returns immediately; computing the
sort keys raises (before the backup is even created) if some date is
unparsable; otherwise back up the file, load it, insert all bills in
chronological order, and either save once and remove the backup, or restore
the file from the backup and re-raise. -/
def process_multiple_bills (file : Doc) (bills : List Bill) : BatchResult :=
  if bills.isEmpty then ⟨none, file, none⟩
  else if bills.any (fun b => (parse_date b.date).isNone) then
    ⟨some "ParseError", file, none⟩
  else
    let r := insert_all file (sort_bills bills)
    match r.err with
    | some e => ⟨some e, file, some file⟩
    | none => ⟨none, r.doc, none⟩

/-! ## Legacy single-file variant (`src/main.py`) -/

namespace Legacy

/-- Embeds `set_cell_value` (main.py): clear children, append `str(value)` as text,
and set the value-type (plus the `office:value` attribute for numbers); no
formula handling and no numeric sniffing of strings in this variant. -/
def set_cell_value (cell : Cell) (v : PyVal) : Cell :=
  let c := (cell.clearChildren).appendP v.toPyStr
  match v with
  | .num q => (c.setAttrNS OFFICENS "value-type" "float").setAttrNS OFFICENS "value" (ratRepr q)
  | .str _ => c.setAttrNS OFFICENS "value-type" "string"

/-- One column of `create_item_row` (main.py); identical to the
bill_analyzer variant except that it writes through `Legacy.set_cell_value`. -/
def item_row_cell (template_cells : List Cell) (item_name : String) (item_price : PyVal)
    (store_name : Option String) (total_price : Option ℚ) (i : Nat) : Cell :=
  let c1 := match truthyStyle ((template_cells[i]?.getD emptyCell).getAttrNS TABLENS "style-name") with
    | some st => emptyCell.setAttrNS TABLENS "style-name" st
    | none => emptyCell
  if i = COL_STORE ∧ optStrTruthy store_name then set_cell_value c1 (.str (store_name.getD ""))
  else if i = COL_ITEM then set_cell_value c1 (.str item_name)
  else if i = COL_PRICE then set_cell_value c1 item_price
  else if i = COL_TOTAL ∧ optNumTruthy total_price then set_cell_value c1 (.num (total_price.getD 0))
  else c1.appendP ""

/-- Embeds `create_item_row` (main.py). -/
def create_item_row (template_cells : List Cell) (template_row_style : Option String)
    (item_name : String) (item_price : PyVal) (store_name : Option String)
    (total_price : Option ℚ) : Row :=
  ⟨truthyStyle template_row_style,
   (List.range template_cells.length).map
     (item_row_cell template_cells item_name item_price store_name total_price)⟩

/-- Embeds `restore_row_as_new` (main.py; the ods_rows.py variant differs only in
writing through the ods_cells codec). -/
def restore_row_as_new (old_row_data : List (PyVal × Option String))
    (template_row_style : Option String) : Row :=
  ⟨truthyStyle template_row_style,
   old_row_data.enum.map (fun p =>
     let c1 := match truthyStyle p.2.2 with
       | some st => emptyCell.setAttrNS TABLENS "style-name" st
       | none => emptyCell
     if COL_STORE ≤ p.1 ∧ p.2.1.truthy ∧ pyStrip p.2.1.toPyStr ≠ "" then
       set_cell_value c1 p.2.1
     else c1.appendP "")⟩

/-- The per-row predicate of `find_date_row` (main.py): only string values
starting with `"20"` are parsed (`dparser.parse` without `dayfirst`; on the
ISO strings selected by the prefix guard it agrees with the permissive
parser). -/
def row_matches_date (row : Row) (target : Date) : Bool :=
  match row.cells[COL_DATE]? with
  | none => false
  | some c =>
    match get_cell_value c with
    | .str s =>
      if pyStartsWith s "20" then
        match parse_date s with
        | some d => decide (d = target)
        | none => false
      else false
    | .num _ => false

/-- Embeds `find_date_row` (main.py), over the sheet's row list. -/
def find_date_row (rows : List Row) (target : Date) : Option Nat :=
  rows.findIdx? (fun r => row_matches_date r target)

/-- The total-area clearing loop of `insert_bill_into_ods`
(`for col_idx in range(COL_TOTAL, len(cells)): clear_cell_completely(...)`). -/
def clear_cells_from (cells : List Cell) (start : Nat) : List Cell :=
  cells.enum.map (fun p => if start ≤ p.1 then clear_cell_completely p.2 else p.2)

/-- The body of `insert_bill_into_ods` (main.py) between document load and
save: resolve sheet and exact date row (both absences are silent skips), save
the target row's prior data when `has_existing_data` holds, overwrite the
target row's store/item/price cells with the first item, clear the total
area, write the total only for single-item bills, insert the remaining item
rows before the row that followed the target (total on the last item, by
index), and, if prior data was saved, a separator row followed by its
restored copy.  `IndexError` paths model out-of-range cell subscripts. -/
def insert_bill_core (doc : Doc) (bill : Bill) : InsEff :=
  match parse_date bill.date with
  | none => ⟨some "ParseError", doc⟩
  | some d =>
    match find_sheet_by_name doc d.sheetName with
    | none => ⟨none, doc⟩
    | some sheet =>
      match find_date_row sheet.rows d with
      | none => ⟨none, doc⟩
      | some tIdx =>
        let rows := sheet.rows
        match rows[tIdx]? with
        | none => ⟨some "IndexError", doc⟩
        | some target_row =>
          let cells := target_row.cells
          let row_style := target_row.style
          let old_data_exists := has_existing_data cells
          let old_row_data :=
            if old_data_exists then some (save_existing_row_data cells) else none
          match bill.items.head? with
          | none => ⟨some "IndexError", doc⟩
          | some first_item =>
            match cells[COL_STORE]? with
            | none => ⟨some "IndexError", doc⟩
            | some cS =>
              let cells1 := cells.set COL_STORE (set_cell_value cS (.str bill.store))
              match cells1[COL_ITEM]? with
              | none =>
                ⟨some "IndexError", doc_update_sheet doc d.sheetName
                  (rows.set tIdx (Row.mk target_row.style cells1))⟩
              | some cI =>
                let cells2 := cells1.set COL_ITEM (set_cell_value cI (.str first_item.name))
                match cells2[COL_PRICE]? with
                | none =>
                  ⟨some "IndexError", doc_update_sheet doc d.sheetName
                    (rows.set tIdx (Row.mk target_row.style cells2))⟩
                | some cP =>
                  let cells3 := cells2.set COL_PRICE (set_cell_value cP first_item.price)
                  let cells4 := clear_cells_from cells3 COL_TOTAL
                  let cells5 :=
                    if bill.items.length = 1 then
                      match cells4[COL_TOTAL]? with
                      | some cT => cells4.set COL_TOTAL (set_cell_value cT (.num bill.total))
                      | none => cells4
                    else cells4
                  let target_row2 := Row.mk target_row.style cells5
                  let remaining := bill.items.tail
                  let item_rows := remaining.enum.map (fun p =>
                    create_item_row cells5 row_style p.2.name p.2.price none
                      (if p.1 = remaining.length - 1 then some bill.total else none))
                  let tail_rows :=
                    match old_row_data with
                    | some saved =>
                      [create_blank_separator_row cells5 row_style,
                        restore_row_as_new saved row_style]
                    | none => []
                  ⟨none, doc_update_sheet doc d.sheetName
                    (rows.take tIdx ++ [target_row2] ++ item_rows ++ tail_rows ++
                      rows.drop (tIdx + 1))⟩

end Legacy

/-! ## General lemmas about the embedding -/

theorem Cell.getAttrNS_setAttrNS (c : Cell) (ns name ns' name' v : String) :
    (c.setAttrNS ns name v).getAttrNS ns' name' =
      if (ns', name') = ((ns, name) : AttrKey) then some v
      else c.getAttrNS ns' name' := by
  by_cases h : ((ns', name') : AttrKey) = (ns, name)
  · simp only [if_pos h, Cell.getAttrNS, Cell.setAttrNS, h]
    exact getAttrList_setAttrList_same _ _ _
  · simp only [if_neg h, Cell.getAttrNS, Cell.setAttrNS]
    exact getAttrList_setAttrList_ne _ _ _ _ h

theorem Cell.children_setAttrNS (c : Cell) (ns name v : String) :
    (c.setAttrNS ns name v).children = c.children := rfl

theorem Cell.children_removeKeys (c : Cell) (ks : List AttrKey) :
    (removeKeys c ks).children = c.children := by
  induction ks generalizing c with
  | nil => rfl
  | cons k ks ih => simp only [removeKeys, List.foldl_cons] at ih ⊢; exact ih _

theorem Cell.getAttrNS_removeKeys (c : Cell) (ks : List AttrKey) (ns name : String) :
    (removeKeys c ks).getAttrNS ns name =
      if ((ns, name) : AttrKey) ∈ ks then none else c.getAttrNS ns name := by
  induction ks generalizing c with
  | nil => simp [removeKeys]
  | cons k ks ih =>
    simp only [removeKeys, List.foldl_cons] at ih ⊢
    rw [ih]
    by_cases hm : ((ns, name) : AttrKey) ∈ ks
    · simp [hm, List.mem_cons]
    · by_cases hk : ((ns, name) : AttrKey) = k
      · simp only [if_neg hm, Cell.getAttrNS, Cell.removeAttrNS, getAttrList_removeAttrList,
          if_pos hk]
        simp [List.mem_cons, hk]
      · have hc : ¬ ((ns, name) : AttrKey) ∈ k :: ks := by simp [List.mem_cons, hk, hm]
        simp only [if_neg hm, if_neg hc, Cell.getAttrNS, Cell.removeAttrNS,
          getAttrList_removeAttrList, if_neg hk]

/-- The full key set cleared by `clear_cell_completely`. -/
def clearedKeys : List AttrKey :=
  OFFICE_ATTRS_TO_CLEAR.map (fun n => (OFFICENS, n)) ++
    TABLE_ATTRS_TO_CLEAR.map (fun n => (TABLENS, n)) ++
    CALCEXT_ATTRS_TO_CLEAR.map (fun n => (CALCEXT_NS, n))

theorem clear_cell_completely_children (c : Cell) :
    (clear_cell_completely c).children = [] := by
  simp only [clear_cell_completely, Cell.children_removeKeys]
  rfl

theorem clear_cell_completely_getAttrNS (c : Cell) (ns name : String) :
    (clear_cell_completely c).getAttrNS ns name =
      if ((ns, name) : AttrKey) ∈ clearedKeys then none else c.getAttrNS ns name := by
  simp only [clear_cell_completely, Cell.getAttrNS_removeKeys, clearedKeys, List.mem_append]
  by_cases h1 : ((ns, name) : AttrKey) ∈ CALCEXT_ATTRS_TO_CLEAR.map (fun n => ((CALCEXT_NS, n) : AttrKey))
  · simp [h1]
  · by_cases h2 : ((ns, name) : AttrKey) ∈ TABLE_ATTRS_TO_CLEAR.map (fun n => ((TABLENS, n) : AttrKey))
    · simp [h1, h2]
    · by_cases h3 : ((ns, name) : AttrKey) ∈ OFFICE_ATTRS_TO_CLEAR.map (fun n => ((OFFICENS, n) : AttrKey))
      · simp [h1, h2, h3]
      · simp [h1, h2, h3, Cell.getAttrNS, Cell.clearChildren]

/-- Row accounting for `doc_update_sheet`: updating the sheet found by
`find_sheet_by_name` replaces exactly that sheet's rows. -/
theorem find_sheet_doc_update (doc : Doc) (nm : String) (sheet : Sheet) (rows2 : List Row)
    (h : find_sheet_by_name doc nm = some sheet) :
    find_sheet_by_name (doc_update_sheet doc nm rows2) nm = some ⟨sheet.name, rows2⟩ := by
  induction doc with
  | nil => simp [find_sheet_by_name] at h
  | cons s rest ih =>
    by_cases hs : s.name = nm
    · simp only [find_sheet_by_name, List.find?] at h
      rw [show (s.name == nm) = true by simp [hs]] at h
      simp only [Option.some.injEq] at h
      subst h
      simp only [doc_update_sheet, if_pos hs, find_sheet_by_name, List.find?]
      rw [show (s.name == nm) = true by simp [hs]]
    · simp only [find_sheet_by_name, List.find?] at h
      rw [show (s.name == nm) = false by simp [hs]] at h
      simp only [doc_update_sheet, if_neg hs, find_sheet_by_name, List.find?]
      rw [show (s.name == nm) = false by simp [hs]]
      exact ih h

/-! ## Lemmas about the duplicate-detector scans -/

/-- A row whose total column exists, is truthy, and parses to exactly the
given total (the success configuration of `_find_total_in_bill_group`). -/
def row_total_parses_to (row : Row) (total : ℚ) : Bool :=
  decide (COL_TOTAL < row.cells.length) &&
    ((get_cell_value (row.cells[COL_TOTAL]?.getD emptyCell)).truthy &&
      (is_number (extract_price_number (get_cell_value (row.cells[COL_TOTAL]?.getD emptyCell))) &&
        decide ((pyFloat (extract_price_number
          (get_cell_value (row.cells[COL_TOTAL]?.getD emptyCell)))).getD 0 = total)))

theorem get_store_aux_bounds (rows : List Row) (s : Nat) (store : String) :
    ∀ fuel idx m, get_store_aux rows s store idx fuel = some m →
      idx ≤ m ∧ m < rows.length := by
  intro fuel
  induction fuel with
  | zero => intro idx m h; simp [get_store_aux] at h
  | succ fuel ih =>
    intro idx m h
    cases hrow : rows[idx]? with
    | none => simp [get_store_aux, hrow] at h
    | some row =>
      obtain ⟨hlt, -⟩ := List.getElem?_eq_some.mp hrow
      simp only [get_store_aux, hrow] at h
      by_cases h1 : row.cells.length ≤ COL_STORE
      · rw [if_pos h1] at h
        have hr := ih (idx + 1) m h
        exact ⟨Nat.le_of_succ_le hr.1, hr.2⟩
      · rw [if_neg h1] at h
        by_cases h2 : s ≠ idx ∧ (get_cell_value (row.cells[COL_DATE]?.getD emptyCell)).truthy
        · rw [if_pos h2] at h; exact absurd h (by simp)
        · rw [if_neg h2] at h
          by_cases h3 : ¬ (get_cell_value (row.cells[COL_STORE]?.getD emptyCell)).truthy
          · rw [if_pos h3] at h
            have hr := ih (idx + 1) m h
            exact ⟨Nat.le_of_succ_le hr.1, hr.2⟩
          · rw [if_neg h3] at h
            by_cases h4 :
                pyLower (pyStrip (get_cell_value (row.cells[COL_STORE]?.getD emptyCell)).toPyStr) ≠ store
            · rw [if_pos h4] at h
              have hr := ih (idx + 1) m h
              exact ⟨Nat.le_of_succ_le hr.1, hr.2⟩
            · rw [if_neg h4] at h
              simp only [Option.some.injEq] at h
              subst h
              exact ⟨le_refl _, hlt⟩

theorem get_store_from_bill_start_bounds (rows : List Row) (s : Nat) (store : String) (m : Nat)
    (h : get_store_from_bill_start rows s store = some m) : s ≤ m ∧ m < rows.length :=
  get_store_aux_bounds rows s store rows.length s m h

/-- The date-marker abort of the store scan: when the scan succeeds, no row it
examined up to the hit (other than the start row) with more than `COL_STORE`
cells carries a truthy date value. -/
theorem get_store_aux_no_date (rows : List Row) (s : Nat) (store : String) :
    ∀ fuel idx m, get_store_aux rows s store idx fuel = some m →
      ∀ j row_j, idx ≤ j → j ≤ m → j ≠ s → rows[j]? = some row_j →
        COL_STORE < row_j.cells.length →
        (get_cell_value (row_j.cells[COL_DATE]?.getD emptyCell)).truthy = false := by
  intro fuel
  induction fuel with
  | zero => intro idx m h; simp [get_store_aux] at h
  | succ fuel ih =>
    intro idx m h j row_j hij hjm hjs hrowj hlen
    cases hrow : rows[idx]? with
    | none => simp [get_store_aux, hrow] at h
    | some row =>
      simp only [get_store_aux, hrow] at h
      by_cases h1 : row.cells.length ≤ COL_STORE
      · rw [if_pos h1] at h
        rcases Nat.lt_or_ge idx j with hlt | hge
        · exact ih (idx + 1) m h j row_j hlt hjm hjs hrowj hlen
        · have hj : idx = j := le_antisymm hij hge
          subst hj
          rw [hrow] at hrowj
          simp only [Option.some.injEq] at hrowj
          subst hrowj
          exact absurd hlen (by omega)
      · rw [if_neg h1] at h
        by_cases h2 : s ≠ idx ∧ (get_cell_value (row.cells[COL_DATE]?.getD emptyCell)).truthy
        · rw [if_pos h2] at h; exact absurd h (by simp)
        · rw [if_neg h2] at h
          rcases Nat.lt_or_ge idx j with hlt | hge
          · by_cases h3 : ¬ (get_cell_value (row.cells[COL_STORE]?.getD emptyCell)).truthy
            · rw [if_pos h3] at h
              exact ih (idx + 1) m h j row_j hlt hjm hjs hrowj hlen
            · rw [if_neg h3] at h
              by_cases h4 :
                  pyLower (pyStrip (get_cell_value (row.cells[COL_STORE]?.getD emptyCell)).toPyStr) ≠ store
              · rw [if_pos h4] at h
                exact ih (idx + 1) m h j row_j hlt hjm hjs hrowj hlen
              · rw [if_neg h4] at h
                simp only [Option.some.injEq] at h
                subst h
                exact absurd hjm (by omega)
          · have hj : idx = j := le_antisymm hij hge
            subst hj
            rw [hrow] at hrowj
            simp only [Option.some.injEq] at hrowj
            subst hrowj
            rcases Bool.eq_false_or_eq_true
                ((get_cell_value (row.cells[COL_DATE]?.getD emptyCell)).truthy) with ht | hf
            · exact absurd ⟨Ne.symm hjs, ht⟩ h2
            · exact hf

/-- The exactness of the total comparison: a successful total scan found a
row whose total column parses to exactly the searched total. -/
theorem find_total_aux_exact (rows : List Row) (s : Nat) (total : ℚ) :
    ∀ fuel idx m, find_total_aux rows s total idx fuel = some m →
      ∃ row_m, rows[m]? = some row_m ∧ row_total_parses_to row_m total = true := by
  intro fuel
  induction fuel with
  | zero => intro idx m h; simp [find_total_aux] at h
  | succ fuel ih =>
    intro idx m h
    cases hrow : rows[idx]? with
    | none => simp [find_total_aux, hrow] at h
    | some row =>
      simp only [find_total_aux, hrow] at h
      by_cases h1 : row.cells.length ≤ COL_TOTAL
      · rw [if_pos h1] at h
        exact ih (idx + 1) m h
      · rw [if_neg h1] at h
        by_cases h2 : s ≠ idx ∧
            ((get_cell_value (row.cells[COL_DATE]?.getD emptyCell)).truthy ∨
              (get_cell_value (row.cells[COL_STORE]?.getD emptyCell)).truthy)
        · rw [if_pos h2] at h; exact absurd h (by simp)
        · rw [if_neg h2] at h
          by_cases h3 : ¬ (get_cell_value (row.cells[COL_TOTAL]?.getD emptyCell)).truthy
          · rw [if_pos h3] at h
            exact ih (idx + 1) m h
          · rw [if_neg h3] at h
            by_cases h4 : ¬ is_number (extract_price_number
                (get_cell_value (row.cells[COL_TOTAL]?.getD emptyCell)))
            · rw [if_pos h4] at h
              exact ih (idx + 1) m h
            · rw [if_neg h4] at h
              by_cases h5 : (pyFloat (extract_price_number
                  (get_cell_value (row.cells[COL_TOTAL]?.getD emptyCell)))).getD 0 ≠ total
              · rw [if_pos h5] at h; exact absurd h (by simp)
              · rw [if_neg h5] at h
                simp only [Option.some.injEq] at h
                subst h
                refine ⟨row, hrow, ?_⟩
                simp only [row_total_parses_to, Bool.and_eq_true, decide_eq_true_eq]
                refine ⟨by omega, ?_, ?_, ?_⟩
                · simpa using h3
                · simpa using h4
                · simpa using h5

theorem find_total_in_bill_group_exact (rows : List Row) (s : Nat) (total : ℚ) (m : Nat)
    (h : find_total_in_bill_group rows s total = some m) :
    ∃ row_m, rows[m]? = some row_m ∧ row_total_parses_to row_m total = true :=
  find_total_aux_exact rows s total rows.length s m h

theorem bill_scan_aux_total (rows : List Row) (s : Nat) (e : Option Nat)
    (crit : BillSearchCriteria) :
    ∀ fuel idx, bill_scan_aux rows s e crit idx fuel = true →
      ∃ (m : Nat) (row_m : Row), rows[m]? = some row_m ∧
        row_total_parses_to row_m crit.total = true := by
  intro fuel
  induction fuel with
  | zero => intro idx h; simp [bill_scan_aux] at h
  | succ fuel ih =>
    intro idx h
    cases hst : get_store_from_bill_start rows idx crit.store_normalized with
    | none => simp [bill_scan_aux, hst] at h
    | some m0 =>
      simp only [bill_scan_aux, hst] at h
      by_cases h1 : m0 < s
      · rw [if_pos h1] at h; exact absurd h (by simp)
      · rw [if_neg h1] at h
        by_cases h2 : end_hit e m0 = true
        · rw [if_pos h2] at h; exact absurd h (by simp)
        · rw [if_neg h2] at h
          cases hft : find_total_in_bill_group rows m0 crit.total with
          | none =>
            rw [hft] at h
            exact ih (m0 + 1) h
          | some t =>
            obtain ⟨row_m, hr, hp⟩ := find_total_in_bill_group_exact rows m0 crit.total t hft
            exact ⟨t, row_m, hr, hp⟩

/-- A reported duplicate always rests on a row whose total column parses to
exactly the searched total. -/
theorem check_duplicate_rows_exact_total (rows : List Row) (crit : BillSearchCriteria)
    (h : check_duplicate_rows rows crit = true) :
    ∃ (m : Nat) (row_m : Row), rows[m]? = some row_m ∧
      row_total_parses_to row_m crit.total = true := by
  simp only [check_duplicate_rows, List.any_eq_true] at h
  obtain ⟨i, -, hp⟩ := h
  revert hp
  unfold process_bill_row_for_duplicate
  by_cases hmd : ¬ has_matching_date ((rows[i]?.getD emptyRow)).cells crit.date_str
  · rw [if_pos hmd]; intro hp; exact absurd hp (by simp)
  · rw [if_neg hmd]
    intro hp
    exact bill_scan_aux_total rows i (find_next_date_row rows i) crit (rows.length + 1) i hp

/-- A reported duplicate always rests on a start row whose date column
matches the searched ISO date. -/
theorem check_duplicate_rows_date (rows : List Row) (crit : BillSearchCriteria)
    (h : check_duplicate_rows rows crit = true) :
    ∃ (i : Nat) (row_i : Row), rows[i]? = some row_i ∧
      has_matching_date row_i.cells crit.date_str = true := by
  simp only [check_duplicate_rows, List.any_eq_true, List.mem_range] at h
  obtain ⟨i, hilt, hp⟩ := h
  revert hp
  unfold process_bill_row_for_duplicate
  by_cases hmd : ¬ has_matching_date ((rows[i]?.getD emptyRow)).cells crit.date_str
  · rw [if_pos hmd]; intro hp; exact absurd hp (by simp)
  · rw [if_neg hmd]
    intro hp
    cases hrow : rows[i]? with
    | none =>
      exact absurd hrow (by simp [List.getElem?_eq_none_iff]; omega)
    | some row_i =>
      refine ⟨i, row_i, hrow, ?_⟩
      rw [hrow] at hmd
      simpa using hmd

/-- The position guard of the scan loop: a found store row below the start
row, or at/after the bounding date row, yields no match for this start row. -/
theorem process_bill_row_guard (rows : List Row) (i : Nat) (crit : BillSearchCriteria) (m : Nat)
    (hst : get_store_from_bill_start rows i crit.store_normalized = some m)
    (hout : m < i ∨ end_hit (find_next_date_row rows i) m = true) :
    process_bill_row_for_duplicate rows i crit = false := by
  unfold process_bill_row_for_duplicate
  by_cases hmd : ¬ has_matching_date ((rows[i]?.getD emptyRow)).cells crit.date_str
  · rw [if_pos hmd]
  · rw [if_neg hmd]
    show bill_scan_aux rows i (find_next_date_row rows i) crit i (rows.length + 1) = false
    simp only [bill_scan_aux, hst]
    rcases hout with h1 | h2
    · rw [if_pos h1]
    · by_cases h1 : m < i
      · rw [if_pos h1]
      · rw [if_neg h1, if_pos h2]

/-! ## Lemmas about the insertion engine -/

/-- Rows of the sheet with the given name, if present. -/
def sheet_rows (doc : Doc) (nm : String) : Option (List Row) :=
  (find_sheet_by_name doc nm).map Sheet.rows

/-- Name and row count of every sheet of a document. -/
def doc_row_counts (doc : Doc) : List (String × Nat) :=
  doc.map (fun s => (s.name, s.rows.length))

theorem doc_row_counts_update (doc : Doc) (nm : String) (sheet : Sheet) (rows2 : List Row)
    (hs : find_sheet_by_name doc nm = some sheet) (hl : rows2.length = sheet.rows.length) :
    doc_row_counts (doc_update_sheet doc nm rows2) = doc_row_counts doc := by
  induction doc with
  | nil => simp [find_sheet_by_name] at hs
  | cons s rest ih =>
    by_cases hn : s.name = nm
    · simp only [find_sheet_by_name, List.find?] at hs
      rw [show (s.name == nm) = true by simp [hn]] at hs
      simp only [Option.some.injEq] at hs
      subst hs
      simp [doc_update_sheet, if_pos hn, doc_row_counts, hl]
    · simp only [find_sheet_by_name, List.find?] at hs
      rw [show (s.name == nm) = false by simp [hn]] at hs
      simp only [doc_update_sheet, if_neg hn, doc_row_counts, List.map_cons, List.cons.injEq]
      exact ⟨trivial, ih hs⟩

/-- Core accounting of a successful insertion: when the date parses, the
sheet exists and no exception is raised, `_insert_single_bill_data` replaces
the sheet's rows by a list that is longer by `items.length + 1` (the new date
row, one row per item beyond the first, and the blank separator row). -/
theorem insert_single_bill_data_success (doc : Doc) (bill : Bill) (d : Date) (sheet : Sheet)
    (hd : parse_date bill.date = some d)
    (hs : find_sheet_by_name doc d.sheetName = some sheet)
    (hok : (insert_single_bill_data doc bill).err = none) :
    ∃ rows2 : List Row,
      insert_single_bill_data doc bill = ⟨none, doc_update_sheet doc d.sheetName rows2⟩ ∧
        rows2.length = sheet.rows.length + bill.items.length + 1 := by
  cases hrow : sheet.rows[insertion_target_idx sheet.rows bill.date d]? with
  | none =>
    exfalso
    simp [insert_single_bill_data, hd, hs, hrow] at hok
  | some target_row =>
    cases hcl : clear_date_cell_step target_row.cells with
    | error e =>
      exfalso
      simp [insert_single_bill_data, hd, hs, hrow, hcl] at hok
    | ok cells2 =>
      cases hit : bill.items.head? with
      | none =>
        exfalso
        simp [insert_single_bill_data, hd, hs, hrow, hcl, hit] at hok
      | some it0 =>
        have hne : bill.items ≠ [] := by
          intro hnil; rw [hnil] at hit; simp at hit
        obtain ⟨htlt, -⟩ := List.getElem?_eq_some.mp hrow
        by_cases hone : bill.items.length ≤ 1
        · have h1 : bill.items.length = 1 := by
            have hz : bill.items.length ≠ 0 := fun hz => hne (List.length_eq_zero.mp hz)
            omega
          refine ⟨List.take (insertion_target_idx sheet.rows bill.date d)
              (sheet.rows.set (insertion_target_idx sheet.rows bill.date d)
                ⟨target_row.style, cells2⟩) ++
            [⟨none, (List.range (COL_TOTAL + 1)).map (date_row_cell bill it0)⟩, emptyRow,
              ⟨target_row.style, cells2⟩] ++
            List.drop (insertion_target_idx sheet.rows bill.date d + 1)
              (sheet.rows.set (insertion_target_idx sheet.rows bill.date d)
                ⟨target_row.style, cells2⟩), ?_, ?_⟩
          · simp only [insert_single_bill_data, hd, hs, hrow, hcl, hit, if_pos hone]
          · simp only [List.length_append, List.length_take, List.length_drop,
              List.length_set, List.length_cons, List.length_nil, h1]
            omega
        · refine ⟨List.take (insertion_target_idx sheet.rows bill.date d)
              (sheet.rows.set (insertion_target_idx sheet.rows bill.date d)
                ⟨target_row.style, cells2⟩) ++
            [⟨none, (List.range (COL_TOTAL + 1)).map (date_row_cell bill it0)⟩] ++
            bill.items.tail.map (fun it =>
              create_item_row cells2 target_row.style it.name it.price none
                (if it = bill.items.tail.getLastD it0 then some bill.total else none)) ++
            [emptyRow, ⟨target_row.style, cells2⟩] ++
            List.drop (insertion_target_idx sheet.rows bill.date d + 1)
              (sheet.rows.set (insertion_target_idx sheet.rows bill.date d)
                ⟨target_row.style, cells2⟩), ?_, ?_⟩
          · simp only [insert_single_bill_data, hd, hs, hrow, hcl, hit, if_neg hone]
          · simp only [List.length_append, List.length_take, List.length_drop,
              List.length_set, List.length_map, List.length_cons, List.length_nil,
              List.length_tail]
            omega

/-- Empty-items accounting: with an empty item list `_insert_single_bill_data`
either raises (the `bill_data["items"][0]` subscript) or returns with the
document untouched (missing sheet / unparsable date), and in every case the
row count of every sheet is unchanged — no rows are ever inserted. -/
theorem insert_single_bill_data_empty_items (doc : Doc) (bill : Bill) (h : bill.items = []) :
    ((insert_single_bill_data doc bill).err.isSome = true ∨
      (insert_single_bill_data doc bill).doc = doc) ∧
    doc_row_counts (insert_single_bill_data doc bill).doc = doc_row_counts doc := by
  cases hd : parse_date bill.date with
  | none => simp [insert_single_bill_data, hd]
  | some d =>
    cases hs : find_sheet_by_name doc d.sheetName with
    | none => simp [insert_single_bill_data, hd, hs]
    | some sheet =>
      cases hrow : sheet.rows[insertion_target_idx sheet.rows bill.date d]? with
      | none => simp [insert_single_bill_data, hd, hs, hrow]
      | some target_row =>
        cases hcl : clear_date_cell_step target_row.cells with
        | error e => simp [insert_single_bill_data, hd, hs, hrow, hcl]
        | ok cells2 =>
          have hit : bill.items.head? = none := by rw [h]; rfl
          constructor
          · left
            simp [insert_single_bill_data, hd, hs, hrow, hcl, hit]
          · simp only [insert_single_bill_data, hd, hs, hrow, hcl, hit]
            exact doc_row_counts_update doc d.sheetName sheet _ hs (by simp)

/-! ## A specification for `List.findIdx?` (used by the row locators) -/

theorem findIdx?_go_some {α : Type} (p : α → Bool) :
    ∀ (l : List α) (i j : Nat), List.findIdx? p l i = some j →
      i ≤ j ∧ ∃ a, l[j - i]? = some a ∧ p a = true ∧
        ∀ k b, k < j - i → l[k]? = some b → p b = false := by
  intro l
  induction l with
  | nil => intro i j h; rw [List.findIdx?_nil] at h; cases h
  | cons x xs ih =>
    intro i j h
    rw [List.findIdx?_cons] at h
    by_cases hp : p x = true
    · rw [if_pos hp] at h
      cases h
      refine ⟨le_refl _, x, by simp, hp, ?_⟩
      intro k b hk
      omega
    · rw [if_neg hp] at h
      obtain ⟨hij, a, ha, hpa, hall⟩ := ih (i + 1) j h
      refine ⟨by omega, a, ?_, hpa, ?_⟩
      · have hji : j - i = (j - (i + 1)) + 1 := by omega
        rw [hji]
        simpa using ha
      · intro k b hk hb
        cases k with
        | zero =>
          simp only [List.getElem?_cons_zero, Option.some.injEq] at hb
          subst hb
          simpa using hp
        | succ k2 =>
          have hk2 : k2 < j - (i + 1) := by omega
          apply hall k2 b hk2
          simpa using hb

theorem findIdx?_go_none {α : Type} (p : α → Bool) :
    ∀ (l : List α) (i : Nat), List.findIdx? p l i = none →
      ∀ (k : Nat) (b : α), l[k]? = some b → p b = false := by
  intro l
  induction l with
  | nil => intro i h k b hb; simp at hb
  | cons x xs ih =>
    intro i h k b hb
    rw [List.findIdx?_cons] at h
    by_cases hp : p x = true
    · rw [if_pos hp] at h; cases h
    · rw [if_neg hp] at h
      cases k with
      | zero =>
        simp only [List.getElem?_cons_zero, Option.some.injEq] at hb
        subst hb
        simpa using hp
      | succ k2 =>
        apply ih (i + 1) h k2 b
        simpa using hb

/-- Blank date columns of a restored row: `restore_row_as_new` leaves every
column before `COL_STORE` as an empty, value-free paragraph cell. -/
theorem Legacy.restore_row_blank_date_col (old_data : List (PyVal × Option String))
    (style : Option String) (i : Nat) (hi : i < COL_STORE) (hil : i < old_data.length) :
    ∃ c : Cell, (Legacy.restore_row_as_new old_data style).cells[i]? = some c ∧
      c.children = [""] ∧ c.getAttrNS OFFICENS "value" = none ∧
      c.getAttrNS OFFICENS "value-type" = none := by
  obtain ⟨pr, hpr⟩ : ∃ pr, old_data[i]? = some pr :=
    ⟨old_data[i], List.getElem?_eq_getElem hil⟩
  have hcond : ¬ (COL_STORE ≤ i ∧ pr.1.truthy = true ∧ pyStrip pr.1.toPyStr ≠ "") := by
    intro hc
    exact absurd hc.1 (by omega)
  refine ⟨(match truthyStyle pr.2 with
      | some st => emptyCell.setAttrNS TABLENS "style-name" st
      | none => emptyCell).appendP "", ?_, ?_, ?_, ?_⟩
  · simp only [Legacy.restore_row_as_new, List.getElem?_map, List.getElem?_enum, hpr,
      Option.map_some', Option.some.injEq]
    rw [if_neg hcond]
  · cases htt : truthyStyle pr.2 with
    | none => simp [Cell.appendP, emptyCell]
    | some st => simp [Cell.appendP, Cell.setAttrNS, emptyCell, setAttrList]
  · cases htt : truthyStyle pr.2 with
    | none => simp [Cell.appendP, Cell.getAttrNS, emptyCell, getAttrList]
    | some st =>
      simp [Cell.appendP, Cell.getAttrNS, Cell.setAttrNS, emptyCell, setAttrList, getAttrList,
        OFFICENS, TABLENS]
  · cases htt : truthyStyle pr.2 with
    | none => simp [Cell.appendP, Cell.getAttrNS, emptyCell, getAttrList]
    | some st =>
      simp [Cell.appendP, Cell.getAttrNS, Cell.setAttrNS, emptyCell, setAttrList, getAttrList,
        OFFICENS, TABLENS]

/-! ## Concrete fixtures for witnesses and counterexamples -/

/-- A cell holding only one text paragraph. -/
def fx_pcell (t : String) : Cell := ⟨[], [t]⟩

/-- A date cell carrying an ISO `office:date-value` attribute. -/
def fx_dcell (iso : String) : Cell := ⟨[((OFFICENS, "date-value"), iso)], []⟩

/-- A ledger date row for 2024-03-05 (columns 0-5). -/
def fx_date_row : Row :=
  ⟨some "ro1", [fx_pcell "", fx_dcell "2024-03-05", fx_pcell "", fx_pcell "", fx_pcell "",
    fx_pcell ""]⟩

/-- A one-sheet ledger for March 2024. -/
def fx_doc : Doc := [⟨"Mar 24", [fx_date_row]⟩]

/-- A single-item bill dated 2024-03-05. -/
def fx_bill : Bill := ⟨"05.03.24", "Edeka", [⟨"Milch", .str "1,19"⟩], mkRat 119 100⟩

/-- A bill with an empty item list. -/
def fx_bill_empty : Bill := ⟨"06.03.24", "Rewe", [], 0⟩

/-- A later bill that a failing batch never reaches. -/
def fx_bill_later : Bill := ⟨"07.03.24", "Aldi", [⟨"X", .num 1⟩], 1⟩

/-- An existing one-row bill group: date 2024-03-05, store Edeka, total 10.0. -/
def fx4_row : Row :=
  ⟨none, [fx_pcell "", fx_dcell "2024-03-05", fx_pcell "Edeka", fx_pcell "Milch",
    fx_pcell "1.19", fx_pcell "10.0"]⟩

/-- A date-only marker row for 2024-03-05. -/
def fx5_date_row : Row :=
  ⟨none, [fx_pcell "", fx_dcell "2024-03-05", fx_pcell "", fx_pcell "", fx_pcell "",
    fx_pcell ""]⟩

/-- A sub-group of a different store under the same date. -/
def fx5_other_store_row : Row :=
  ⟨none, [fx_pcell "", fx_pcell "", fx_pcell "Aldi", fx_pcell "Brot", fx_pcell "2.0",
    fx_pcell ""]⟩

/-- The matching store row with the matching total. -/
def fx5_match_row : Row :=
  ⟨none, [fx_pcell "", fx_pcell "", fx_pcell "Edeka", fx_pcell "Milch", fx_pcell "5.0",
    fx_pcell "5.0"]⟩

/-- Date group with an intervening non-matching store marker. -/
def fx5_rows : List Row := [fx5_date_row, fx5_other_store_row, fx5_match_row]

/-- Search criteria matching `fx5_match_row` under 2024-03-05. -/
def fx5_crit : BillSearchCriteria := ⟨"2024-03-05", "edeka", 5, mkRat 1 100⟩

/-- A two-cell row carrying a date marker for the following day. -/
def fx5_short_date_row : Row := ⟨none, [fx_pcell "", fx_pcell "2024-03-06"]⟩

/-- Rows where the matching store row lies beyond the bounding date row. -/
def fx5_bounded_rows : List Row := [fx5_date_row, fx5_short_date_row, fx5_match_row]

/-- A legacy-format target row that already holds prior data. -/
def fx3_target_row : Row :=
  ⟨some "ro2", [fx_pcell "", fx_dcell "2024-03-05", fx_pcell "Netto", fx_pcell "Saft",
    fx_pcell "2.49", fx_pcell "2.49"]⟩

/-- A legacy ledger document with one data row and a trailing blank row. -/
def fx3_doc : Doc := [⟨"Mar 24", [fx3_target_row, emptyRow]⟩]

/-- A three-item bill for the legacy insertion path. -/
def fx3_bill : Bill := ⟨"05.03.24", "Edeka", [⟨"A", .num 3⟩, ⟨"B", .num 3⟩, ⟨"C", .num 3⟩], 9⟩

/-- A dated row strictly later than 2024-03-05. -/
def fx7_later_row : Row :=
  ⟨none, [fx_pcell "", fx_dcell "2024-03-10", fx_pcell "X", fx_pcell "Y", fx_pcell "1.0",
    fx_pcell "1.0"]⟩

/-- A sheet with no exact row for 2024-03-05 but a later date. -/
def fx7_rows : List Row := [fx7_later_row]

/-- A styled template cell. -/
def fx10_cell (st : String) : Cell := ⟨[((TABLENS, "style-name"), st)], [""]⟩

/-- A six-column styled template row's cells. -/
def fx10_cells : List Cell :=
  [fx10_cell "c0", fx10_cell "c1", fx10_cell "c2", fx10_cell "c3", fx10_cell "c4",
    fx10_cell "c5"]

/-! ## Claim C9 -/

/-- Claim C9: for every cell, `clear_cell_completely` removes the cell's child
content and all `value`, `date-value`, `time-value`, `boolean-value`,
`string-value`, `value-type` and `currency` office attributes, the table
formula attribute, and the calcext value-type cache, while the cell's
`table:style-name` identifier is left unchanged. -/
theorem claim_C9 (cell : Cell) :
    (clear_cell_completely cell).children = [] ∧
    (clear_cell_completely cell).getAttrNS OFFICENS "value" = none ∧
    (clear_cell_completely cell).getAttrNS OFFICENS "date-value" = none ∧
    (clear_cell_completely cell).getAttrNS OFFICENS "time-value" = none ∧
    (clear_cell_completely cell).getAttrNS OFFICENS "boolean-value" = none ∧
    (clear_cell_completely cell).getAttrNS OFFICENS "string-value" = none ∧
    (clear_cell_completely cell).getAttrNS OFFICENS "value-type" = none ∧
    (clear_cell_completely cell).getAttrNS OFFICENS "currency" = none ∧
    (clear_cell_completely cell).getAttrNS TABLENS "formula" = none ∧
    (clear_cell_completely cell).getAttrNS CALCEXT_NS "value-type" = none ∧
    (clear_cell_completely cell).getAttrNS TABLENS "style-name" =
      cell.getAttrNS TABLENS "style-name" := by
  refine ⟨clear_cell_completely_children cell, ?_, ?_, ?_, ?_, ?_, ?_, ?_, ?_, ?_, ?_⟩ <;>
    rw [clear_cell_completely_getAttrNS]
  · rw [if_pos (by decide)]
  · rw [if_pos (by decide)]
  · rw [if_pos (by decide)]
  · rw [if_pos (by decide)]
  · rw [if_pos (by decide)]
  · rw [if_pos (by decide)]
  · rw [if_pos (by decide)]
  · rw [if_pos (by decide)]
  · rw [if_pos (by decide)]
  · rw [if_neg (by decide)]

/-! ## Claim C10 -/

/-- Claim C10: in `create_item_row` the store and total columns are written
only when the supplied value is truthy: with a `0.0` total and an empty store
name, the total and store cells of the built row are created empty-but-styled
(an empty paragraph, no value attributes, the template column's style), so a
zero total is never written to the last item row. -/
theorem claim_C10 (template_cells : List Cell) (template_row_style : Option String)
    (item_name : String) (item_price : PyVal)
    (hlen : COL_TOTAL < template_cells.length) :
    (∃ c : Cell,
      (create_item_row template_cells template_row_style item_name item_price (some "")
          (some 0)).cells[COL_TOTAL]? = some c ∧
        c.children = [""] ∧ c.getAttrNS OFFICENS "value" = none ∧
        c.getAttrNS OFFICENS "value-type" = none ∧
        c.getAttrNS TABLENS "style-name" =
          truthyStyle ((template_cells[COL_TOTAL]?.getD emptyCell).getAttrNS TABLENS
            "style-name")) ∧
    (∃ c : Cell,
      (create_item_row template_cells template_row_style item_name item_price (some "")
          (some 0)).cells[COL_STORE]? = some c ∧
        c.children = [""] ∧ c.getAttrNS OFFICENS "value" = none ∧
        c.getAttrNS OFFICENS "value-type" = none ∧
        c.getAttrNS TABLENS "style-name" =
          truthyStyle ((template_cells[COL_STORE]?.getD emptyCell).getAttrNS TABLENS
            "style-name")) := by
  have hlenS : COL_STORE < template_cells.length := by
    simp only [COL_STORE]
    simp only [COL_TOTAL] at hlen
    omega
  constructor
  · refine ⟨(match truthyStyle ((template_cells[COL_TOTAL]?.getD emptyCell).getAttrNS TABLENS
        "style-name") with
        | some st => emptyCell.setAttrNS TABLENS "style-name" st
        | none => emptyCell).appendP "", ?_, ?_⟩
    · simp only [create_item_row, List.getElem?_map, List.getElem?_range hlen,
        Option.map_some', Option.some.injEq, item_row_cell]
      rw [if_neg (by decide), if_neg (by decide), if_neg (by decide), if_neg (by decide)]
    · cases htt : truthyStyle ((template_cells[COL_TOTAL]?.getD emptyCell).getAttrNS TABLENS
          "style-name") with
      | none => simp [Cell.appendP, Cell.getAttrNS, emptyCell, getAttrList]
      | some st =>
        simp [Cell.appendP, Cell.getAttrNS, Cell.setAttrNS, emptyCell, setAttrList,
          getAttrList, OFFICENS, TABLENS]
  · refine ⟨(match truthyStyle ((template_cells[COL_STORE]?.getD emptyCell).getAttrNS TABLENS
        "style-name") with
        | some st => emptyCell.setAttrNS TABLENS "style-name" st
        | none => emptyCell).appendP "", ?_, ?_⟩
    · simp only [create_item_row, List.getElem?_map, List.getElem?_range hlenS,
        Option.map_some', Option.some.injEq, item_row_cell]
      rw [if_neg (by decide), if_neg (by decide), if_neg (by decide), if_neg (by decide)]
    · cases htt : truthyStyle ((template_cells[COL_STORE]?.getD emptyCell).getAttrNS TABLENS
          "style-name") with
      | none => simp [Cell.appendP, Cell.getAttrNS, emptyCell, getAttrList]
      | some st =>
        simp [Cell.appendP, Cell.getAttrNS, Cell.setAttrNS, emptyCell, setAttrList,
          getAttrList, OFFICENS, TABLENS]

/-- Witness for C10 at a concrete six-column styled template. -/
theorem claim_C10_witness :
    (∃ c : Cell,
      (create_item_row fx10_cells (some "ro") "Milch" (.num (mkRat 119 100)) (some "")
          (some 0)).cells[COL_TOTAL]? = some c ∧
        c.children = [""] ∧ c.getAttrNS OFFICENS "value" = none ∧
        c.getAttrNS OFFICENS "value-type" = none ∧
        c.getAttrNS TABLENS "style-name" =
          truthyStyle ((fx10_cells[COL_TOTAL]?.getD emptyCell).getAttrNS TABLENS
            "style-name")) ∧
    (∃ c : Cell,
      (create_item_row fx10_cells (some "ro") "Milch" (.num (mkRat 119 100)) (some "")
          (some 0)).cells[COL_STORE]? = some c ∧
        c.children = [""] ∧ c.getAttrNS OFFICENS "value" = none ∧
        c.getAttrNS OFFICENS "value-type" = none ∧
        c.getAttrNS TABLENS "style-name" =
          truthyStyle ((fx10_cells[COL_STORE]?.getD emptyCell).getAttrNS TABLENS
            "style-name")) :=
  claim_C10 fx10_cells (some "ro") "Milch" (.num (mkRat 119 100)) (by decide)

/-! ## Claim C8 -/

/-- Claim C8: for every string written via `set_cell_value`, a string
beginning with `=` is stored as a formula cell (`table:formula` set to `of:`
plus the expression with decimal commas replaced by dots) with a float
value-type; every other string is first parsed as a number accepting comma or
dot as decimal separator and stored float-typed on success, and is stored as
a string-typed free-text cell only when that parse fails. -/
theorem claim_C8 (cell : Cell) (s : String) :
    (pyStartsWith s "=" = true →
      (set_cell_value cell (.str s)).getAttrNS TABLENS "formula" =
          some ("of:" ++ pyReplaceChar s ',' '.') ∧
        (set_cell_value cell (.str s)).getAttrNS OFFICENS "value-type" = some "float" ∧
        (set_cell_value cell (.str s)).children = [""]) ∧
    (pyStartsWith s "=" = false → ∀ q : ℚ, pyFloat (pyReplaceChar s ',' '.') = some q →
      (set_cell_value cell (.str s)).getAttrNS OFFICENS "value-type" = some "float" ∧
        (set_cell_value cell (.str s)).getAttrNS OFFICENS "value" = some (ratRepr q) ∧
        (set_cell_value cell (.str s)).children = [ratRepr q]) ∧
    (pyStartsWith s "=" = false → pyFloat (pyReplaceChar s ',' '.') = none →
      (set_cell_value cell (.str s)).getAttrNS OFFICENS "value-type" = some "string" ∧
        (set_cell_value cell (.str s)).children = [s]) := by
  refine ⟨?_, ?_, ?_⟩
  · intro hpre
    simp only [set_cell_value, hpre, if_true, set_formula_value]
    refine ⟨?_, ?_, ?_⟩
    · rw [Cell.getAttrNS_setAttrNS, if_neg (by decide), Cell.getAttrNS_setAttrNS,
        if_pos (by decide)]
    · rw [Cell.getAttrNS_setAttrNS, if_pos (by decide)]
    · rfl
  · intro hpre q hq
    simp only [set_cell_value, hpre, Bool.false_eq_true, if_false, set_string_value, hq]
    refine ⟨?_, ?_, ?_⟩
    · rw [Cell.getAttrNS_setAttrNS, if_neg (by decide), Cell.getAttrNS_setAttrNS,
        if_pos (by decide)]
    · rw [Cell.getAttrNS_setAttrNS, if_pos (by decide)]
    · rfl
  · intro hpre hq
    simp only [set_cell_value, hpre, Bool.false_eq_true, if_false, set_string_value, hq]
    refine ⟨?_, ?_⟩
    · rw [Cell.getAttrNS_setAttrNS, if_pos (by decide)]
    · rfl

/-- Witness for C8 on the three string shapes the extraction prompt produces:
a deposit formula, a comma-decimal price, and a plain item name. -/
theorem claim_C8_witness :
    ((set_cell_value emptyCell (.str "=4*0,59")).getAttrNS TABLENS "formula" =
        some ("of:" ++ pyReplaceChar "=4*0,59" ',' '.') ∧
      (set_cell_value emptyCell (.str "=4*0,59")).getAttrNS OFFICENS "value-type" =
        some "float" ∧
      (set_cell_value emptyCell (.str "=4*0,59")).children = [""]) ∧
    ((set_cell_value emptyCell (.str "1,19")).getAttrNS OFFICENS "value-type" =
        some "float" ∧
      (set_cell_value emptyCell (.str "1,19")).getAttrNS OFFICENS "value" =
        some (ratRepr (mkRat 119 100)) ∧
      (set_cell_value emptyCell (.str "1,19")).children = [ratRepr (mkRat 119 100)]) ∧
    ((set_cell_value emptyCell (.str "Milch")).getAttrNS OFFICENS "value-type" =
        some "string" ∧
      (set_cell_value emptyCell (.str "Milch")).children = ["Milch"]) :=
  ⟨(claim_C8 emptyCell "=4*0,59").1 (by decide),
   (claim_C8 emptyCell "1,19").2.1 (by decide) (mkRat 119 100) (by decide),
   (claim_C8 emptyCell "Milch").2.2 (by decide) (by decide)⟩

/-! ## Claim C1 -/

/-- Counterexample to claim C1 as stated: the per-bill insertion succeeds
twice on the same bill (it never consults the duplicate detector) and the
document after the second attempt differs from the document after the first —
insertion is not idempotent. -/
theorem claim_C1_counterexample :
    (insert_single_bill_data fx_doc fx_bill).err = none ∧
    (insert_single_bill_data (insert_single_bill_data fx_doc fx_bill).doc fx_bill).err = none ∧
    (insert_single_bill_data (insert_single_bill_data fx_doc fx_bill).doc fx_bill).doc ≠
      (insert_single_bill_data fx_doc fx_bill).doc := by decide

/-- Claim C1 (amended): `_insert_single_bill_data` does not consult the
duplicate detector; duplicate checking exists only as the separately exported
`check_duplicate_bill` for callers.  Whenever the bill's date parses, its
sheet exists and insertion raises no exception, the target sheet grows by
`items.length + 1` rows — even when an identical bill is already present — so
a second insertion of the same bill extends the document again instead of
being skipped. -/
theorem claim_C1_amended (doc : Doc) (bill : Bill) (d : Date) (sheet : Sheet)
    (hd : parse_date bill.date = some d)
    (hs : find_sheet_by_name doc d.sheetName = some sheet)
    (hok : (insert_single_bill_data doc bill).err = none) :
    ∃ rows2 : List Row,
      sheet_rows ((insert_single_bill_data doc bill).doc) d.sheetName = some rows2 ∧
        rows2.length = sheet.rows.length + bill.items.length + 1 := by
  obtain ⟨rows2, heq, hlen⟩ := insert_single_bill_data_success doc bill d sheet hd hs hok
  refine ⟨rows2, ?_, hlen⟩
  rw [heq]
  show sheet_rows (doc_update_sheet doc d.sheetName rows2) d.sheetName = some rows2
  rw [sheet_rows, find_sheet_doc_update doc d.sheetName sheet rows2 hs]
  rfl

/-- Witness for the amended C1 at the concrete one-row March ledger. -/
theorem claim_C1_amended_witness :
    ∃ rows2 : List Row,
      sheet_rows ((insert_single_bill_data fx_doc fx_bill).doc)
          (Date.mk 2024 3 5).sheetName = some rows2 ∧
        rows2.length = (Sheet.mk "Mar 24" [fx_date_row]).rows.length +
          fx_bill.items.length + 1 :=
  claim_C1_amended fx_doc fx_bill (Date.mk 2024 3 5) (Sheet.mk "Mar 24" [fx_date_row])
    (by decide) (by decide) (by decide)

/-! ## Claim C2 -/

/-- Claim C2: if inserting any bill of a non-empty, date-parsable batch
raises, `process_multiple_bills` restores the ledger file from the pre-batch
backup and re-raises: the resulting file equals the pre-batch file exactly
(and the backup file is left behind, as `restore_from_backup` only copies).
Partial batches never persist. -/
theorem claim_C2_rollback (file : Doc) (bills : List Bill) (e : String)
    (hne : bills ≠ [])
    (hp : ∀ b ∈ bills, (parse_date b.date).isSome)
    (hfail : (insert_all file (sort_bills bills)).err = some e) :
    process_multiple_bills file bills = ⟨some e, file, some file⟩ := by
  unfold process_multiple_bills
  rw [if_neg (fun hh => hne (List.isEmpty_iff.mp hh))]
  rw [if_neg (fun hh => ?_)]
  · simp only [hfail]
  · rw [List.any_eq_true] at hh
    obtain ⟨b, hb, hnone⟩ := hh
    have := hp b hb
    rw [Option.isNone_iff_eq_none.mp hnone] at this
    simp at this

/-- Witness for C2: a three-bill batch whose second bill (empty item list)
raises after the first was inserted; the file rolls back to the original. -/
theorem claim_C2_rollback_witness :
    process_multiple_bills fx_doc [fx_bill, fx_bill_empty, fx_bill_later] =
      ⟨some "IndexError", fx_doc, some fx_doc⟩ :=
  claim_C2_rollback fx_doc [fx_bill, fx_bill_empty, fx_bill_later] "IndexError"
    (by decide) (by decide) (by decide)

/-! ## Claim C4 -/

/-- Counterexample to claim C4 as stated: with the same date and store, a
stored total of 10.0 against a bill total of 10.005 — a difference of exactly
0.005 — is NOT reported as a duplicate (the comparison is exact, not within a
0.01 tolerance); with the exact total 10 the same rows are a duplicate. -/
theorem claim_C4_counterexample :
    check_duplicate_rows [fx4_row]
        (BillSearchCriteria.mk "2024-03-05" "edeka" 10 (mkRat 1 100)) = true ∧
    mkRat 2001 200 - 10 = mkRat 1 200 ∧
    check_duplicate_rows [fx4_row]
        (BillSearchCriteria.mk "2024-03-05" "edeka" (mkRat 2001 200) (mkRat 1 100)) =
      false := by
  refine ⟨by decide, ?_, by decide⟩
  rw [Rat.mkRat_eq_div, Rat.mkRat_eq_div]
  norm_num

/-- Claim C4 (amended): duplicate detection compares totals exactly — the
`epsilon = 0.01` field of `_BillSearchCriteria` is never read.  A reported
duplicate always rests on a row whose total column parses to exactly the
bill's total, so a total differing by more than 0.01 is never reported as a
duplicate, but neither is one differing by exactly 0.005. -/
theorem claim_C4_amended (rows : List Row) (crit : BillSearchCriteria)
    (h : check_duplicate_rows rows crit = true) :
    ∃ (m : Nat) (row_m : Row), rows[m]? = some row_m ∧
      row_total_parses_to row_m crit.total = true :=
  check_duplicate_rows_exact_total rows crit h

/-- Witness for the amended C4 at the one-row group with total 10.0. -/
theorem claim_C4_amended_witness :
    ∃ (m : Nat) (row_m : Row), ([fx4_row])[m]? = some row_m ∧
      row_total_parses_to row_m
        (BillSearchCriteria.mk "2024-03-05" "edeka" 10 (mkRat 1 100)).total = true :=
  claim_C4_amended [fx4_row] (BillSearchCriteria.mk "2024-03-05" "edeka" 10 (mkRat 1 100))
    (by decide)

/-! ## Claim C5 -/

/-- Counterexample to claim C5 as stated: in this date group a non-matching
store marker ("Aldi") stands between the date row and the matching store row,
yet the store scan does not abort — it skips the marker, finds the match at
row 2, and the detector reports a duplicate, contradicting "a date or store
marker seen before a store match … aborts the date group as non-matching". -/
theorem claim_C5_counterexample :
    (get_cell_value ((fx5_rows[1]?.getD emptyRow).cells[COL_STORE]?.getD
        emptyCell)).truthy = true ∧
    pyLower (pyStrip (get_cell_value ((fx5_rows[1]?.getD emptyRow).cells[COL_STORE]?.getD
        emptyCell)).toPyStr) ≠ fx5_crit.store_normalized ∧
    get_store_from_bill_start fx5_rows 0 fx5_crit.store_normalized = some 2 ∧
    check_duplicate_rows fx5_rows fx5_crit = true := by decide

/-- Claim C5 (amended): the duplicate scan is bounded by date markers, but in
the store scan only a DATE marker aborts — non-matching store cells are
skipped.  Precisely: (1) a duplicate is only ever reported when some row
matches the bill's date, so a group with the same store and total under a
different date is never a duplicate; (2) a successful store scan passed no
truthy date cell after its start row; (3) a found store row below the start
row or at/after the bounding date row yields no match for that start row. -/
theorem claim_C5_amended :
    (∀ (rows : List Row) (crit : BillSearchCriteria),
      check_duplicate_rows rows crit = true →
      ∃ (i : Nat) (row_i : Row), rows[i]? = some row_i ∧
        has_matching_date row_i.cells crit.date_str = true) ∧
    (∀ (rows : List Row) (s : Nat) (store : String) (m : Nat),
      get_store_from_bill_start rows s store = some m →
      ∀ (j : Nat) (row_j : Row), s ≤ j → j ≤ m → j ≠ s → rows[j]? = some row_j →
        COL_STORE < row_j.cells.length →
        (get_cell_value (row_j.cells[COL_DATE]?.getD emptyCell)).truthy = false) ∧
    (∀ (rows : List Row) (i : Nat) (crit : BillSearchCriteria) (m : Nat),
      get_store_from_bill_start rows i crit.store_normalized = some m →
      (m < i ∨ end_hit (find_next_date_row rows i) m = true) →
      process_bill_row_for_duplicate rows i crit = false) :=
  ⟨check_duplicate_rows_date,
   fun rows s store m h => get_store_aux_no_date rows s store rows.length s m h,
   process_bill_row_guard⟩

/-- Witness for the amended C5: date-match existence on the matching group,
no date marker passed by the store scan, and the bounded-group guard
rejecting a store row beyond the next date row. -/
theorem claim_C5_amended_witness :
    (∃ (i : Nat) (row_i : Row), fx5_rows[i]? = some row_i ∧
      has_matching_date row_i.cells fx5_crit.date_str = true) ∧
    (get_cell_value (fx5_other_store_row.cells[COL_DATE]?.getD emptyCell)).truthy = false ∧
    process_bill_row_for_duplicate fx5_bounded_rows 0 fx5_crit = false :=
  ⟨claim_C5_amended.1 fx5_rows fx5_crit (by decide),
   claim_C5_amended.2.1 fx5_rows 0 fx5_crit.store_normalized 2 (by decide) 1
     fx5_other_store_row (by decide) (by decide) (by decide) (by decide) (by decide),
   claim_C5_amended.2.2 fx5_bounded_rows 0 fx5_crit 2 (by decide) (Or.inr (by decide))⟩

/-! ## Claim C6 -/

/-- A bill with an empty item list, dated at the existing date row. -/
def fx6_bill : Bill := ⟨"05.03.24", "Rewe", [], 0⟩

/-- Counterexample to claim C6 as stated: an empty item list is NOT rejected
before any mutation — insertion raises an `IndexError` at `items[0]`, but
only after the target date row's date cell has been cleared, so the in-memory
document at the time of the raise differs from the original. -/
theorem claim_C6_counterexample :
    fx6_bill.items = [] ∧
    (insert_single_bill_data fx_doc fx6_bill).err = some "IndexError" ∧
    (insert_single_bill_data fx_doc fx6_bill).doc ≠ fx_doc := by decide

/-- Claim C6 (amended): a bill with an empty item list is never inserted —
the operation either raises (the `items[0]` subscript, before any row is
spliced in) or returns with the document untouched, and the row count of
every sheet is unchanged, so no empty bill group ever appears; but the
rejection is not prior to all mutation: when a target date row exists its
date cell is cleared in memory before the raise. -/
theorem claim_C6_amended (doc : Doc) (bill : Bill) (h : bill.items = []) :
    ((insert_single_bill_data doc bill).err.isSome = true ∨
      (insert_single_bill_data doc bill).doc = doc) ∧
    doc_row_counts (insert_single_bill_data doc bill).doc = doc_row_counts doc :=
  insert_single_bill_data_empty_items doc bill h

/-- Witness for the amended C6 at the concrete ledger. -/
theorem claim_C6_amended_witness :
    ((insert_single_bill_data fx_doc fx6_bill).err.isSome = true ∨
      (insert_single_bill_data fx_doc fx6_bill).doc = fx_doc) ∧
    doc_row_counts (insert_single_bill_data fx_doc fx6_bill).doc = doc_row_counts fx_doc :=
  claim_C6_amended fx_doc fx6_bill (by decide)

/-! ## Claim C7 -/

/-- Claim C7 (spec-modelled locator): when no exact-date row exists, the
insertion target is the chronological insertion point — the first row whose
date parses strictly later than the target, so the new date row is inserted
immediately before it — and when no later-dated row exists the target falls
back to `find_last_row rows + 2` (the constant offset 2 appears in
`_insert_single_bill_data`). -/
theorem claim_C7 (rows : List Row) (date_str : String) (d : Date)
    (hd : parse_date date_str = some d)
    (hnone : find_date_row rows d = none) :
    (∃ i : Nat, find_chronological_insertion_point rows date_str = some i ∧
      insertion_target_idx rows date_str d = i ∧
      (∃ row_i : Row, rows[i]? = some row_i ∧ row_date_later row_i d = true) ∧
      (∀ (j : Nat) (row_j : Row), j < i → rows[j]? = some row_j →
        row_date_later row_j d = false)) ∨
    (find_chronological_insertion_point rows date_str = none ∧
      insertion_target_idx rows date_str d = find_last_row rows + 2 ∧
      (∀ (j : Nat) (row_j : Row), rows[j]? = some row_j →
        row_date_later row_j d = false)) := by
  cases hf : find_chronological_insertion_point rows date_str with
  | some i =>
    left
    have hff : List.findIdx? (fun r => row_date_later r d) rows 0 = some i := by
      simpa [find_chronological_insertion_point, hd] using hf
    obtain ⟨-, a, ha, hpa, hall⟩ := findIdx?_go_some _ rows 0 i hff
    refine ⟨i, rfl, ?_, ⟨a, by simpa using ha, hpa⟩, ?_⟩
    · simp [insertion_target_idx, hnone, hf]
    · intro j row_j hj hrow
      exact hall j row_j (by simpa using hj) hrow
  | none =>
    right
    have hff : List.findIdx? (fun r => row_date_later r d) rows 0 = none := by
      simpa [find_chronological_insertion_point, hd] using hf
    refine ⟨rfl, ?_, ?_⟩
    · simp [insertion_target_idx, hnone, hf]
    · intro j row_j hrow
      exact findIdx?_go_none _ rows 0 hff j row_j hrow

/-- Witness for C7 at a sheet holding only a later-dated row. -/
theorem claim_C7_witness :
    (∃ i : Nat, find_chronological_insertion_point fx7_rows "05.03.24" = some i ∧
      insertion_target_idx fx7_rows "05.03.24" (Date.mk 2024 3 5) = i ∧
      (∃ row_i : Row, fx7_rows[i]? = some row_i ∧
        row_date_later row_i (Date.mk 2024 3 5) = true) ∧
      (∀ (j : Nat) (row_j : Row), j < i → fx7_rows[j]? = some row_j →
        row_date_later row_j (Date.mk 2024 3 5) = false)) ∨
    (find_chronological_insertion_point fx7_rows "05.03.24" = none ∧
      insertion_target_idx fx7_rows "05.03.24" (Date.mk 2024 3 5) =
        find_last_row fx7_rows + 2 ∧
      (∀ (j : Nat) (row_j : Row), fx7_rows[j]? = some row_j →
        row_date_later row_j (Date.mk 2024 3 5) = false)) :=
  claim_C7 fx7_rows "05.03.24" (Date.mk 2024 3 5) (by decide) (by decide)

/-! ## Claim C3 -/

/-- Claim C3 (on `insert_bill_into_ods` of `src/main.py`, the cited insertion
operation with push-down semantics): when the target date row holds prior
data, the row's content is saved (via cell-codec reads of the original cells)
before it is overwritten with the first item, and directly after the newly
inserted item rows come a blank separator row and a restored copy of the
saved row; the restored copy re-creates only non-date columns — columns
before `COL_STORE` stay blank — so older entries sharing the date are pushed
downward rather than lost. -/
theorem claim_C3 (doc : Doc) (bill : Bill) (d : Date) (sheet : Sheet) (tIdx : Nat)
    (target_row : Row) (first_item : Item) (cS cI cP : Cell)
    (hd : parse_date bill.date = some d)
    (hs : find_sheet_by_name doc d.sheetName = some sheet)
    (hfr : Legacy.find_date_row sheet.rows d = some tIdx)
    (hrow : sheet.rows[tIdx]? = some target_row)
    (hdata : has_existing_data target_row.cells = true)
    (hit : bill.items.head? = some first_item)
    (hS : target_row.cells[COL_STORE]? = some cS)
    (hI : (target_row.cells.set COL_STORE
        (Legacy.set_cell_value cS (.str bill.store)))[COL_ITEM]? = some cI)
    (hP : ((target_row.cells.set COL_STORE
        (Legacy.set_cell_value cS (.str bill.store))).set COL_ITEM
        (Legacy.set_cell_value cI (.str first_item.name)))[COL_PRICE]? = some cP) :
    (∃ cells5 : List Cell,
      Legacy.insert_bill_core doc bill = ⟨none, doc_update_sheet doc d.sheetName
        (sheet.rows.take tIdx ++ [Row.mk target_row.style cells5] ++
          bill.items.tail.enum.map (fun p =>
            Legacy.create_item_row cells5 target_row.style p.2.name p.2.price none
              (if p.1 = bill.items.tail.length - 1 then some bill.total else none)) ++
          [create_blank_separator_row cells5 target_row.style,
            Legacy.restore_row_as_new (save_existing_row_data target_row.cells)
              target_row.style] ++
          sheet.rows.drop (tIdx + 1))⟩) ∧
    (∀ i : Nat, i < COL_STORE → i < target_row.cells.length →
      ∃ c : Cell,
        (Legacy.restore_row_as_new (save_existing_row_data target_row.cells)
            target_row.style).cells[i]? = some c ∧
          c.children = [""] ∧ c.getAttrNS OFFICENS "value" = none ∧
          c.getAttrNS OFFICENS "value-type" = none) := by
  constructor
  · refine ⟨(fun cells4 =>
        if bill.items.length = 1 then
          match cells4[COL_TOTAL]? with
          | some cT => cells4.set COL_TOTAL (Legacy.set_cell_value cT (.num bill.total))
          | none => cells4
        else cells4)
        (Legacy.clear_cells_from
          (((target_row.cells.set COL_STORE
              (Legacy.set_cell_value cS (.str bill.store))).set COL_ITEM
              (Legacy.set_cell_value cI (.str first_item.name))).set COL_PRICE
            (Legacy.set_cell_value cP first_item.price)) COL_TOTAL), ?_⟩
    simp [Legacy.insert_bill_core, hd, hs, hfr, hrow, hit, hS, hI, hP, hdata]
  · intro i hi hil
    exact Legacy.restore_row_blank_date_col (save_existing_row_data target_row.cells)
      target_row.style i hi (by simpa [save_existing_row_data] using hil)

/-- Witness for C3: the three-item bill inserted at the Netto-dated row. -/
theorem claim_C3_witness :
    (∃ cells5 : List Cell,
      Legacy.insert_bill_core fx3_doc fx3_bill =
        ⟨none, doc_update_sheet fx3_doc (Date.mk 2024 3 5).sheetName
          (([fx3_target_row, emptyRow] : List Row).take 0 ++
            [Row.mk fx3_target_row.style cells5] ++
            fx3_bill.items.tail.enum.map (fun p =>
              Legacy.create_item_row cells5 fx3_target_row.style p.2.name p.2.price none
                (if p.1 = fx3_bill.items.tail.length - 1 then some fx3_bill.total
                  else none)) ++
            [create_blank_separator_row cells5 fx3_target_row.style,
              Legacy.restore_row_as_new (save_existing_row_data fx3_target_row.cells)
                fx3_target_row.style] ++
            ([fx3_target_row, emptyRow] : List Row).drop (0 + 1))⟩) ∧
    (∀ i : Nat, i < COL_STORE → i < fx3_target_row.cells.length →
      ∃ c : Cell,
        (Legacy.restore_row_as_new (save_existing_row_data fx3_target_row.cells)
            fx3_target_row.style).cells[i]? = some c ∧
          c.children = [""] ∧ c.getAttrNS OFFICENS "value" = none ∧
          c.getAttrNS OFFICENS "value-type" = none) :=
  claim_C3 fx3_doc fx3_bill (Date.mk 2024 3 5) (Sheet.mk "Mar 24" [fx3_target_row, emptyRow])
    0 fx3_target_row (Item.mk "A" (.num 3)) (fx_pcell "Netto") (fx_pcell "Saft")
    (fx_pcell "2.49") (by decide) (by decide) (by decide) (by decide) (by decide)
    (by decide) (by decide) (by decide) (by decide)
